import Mathlib

/-!
Shallow embedding of the Scaffold host-side driver
(`src/api/scaffold/__init__.py`): the `ScaffoldBus` wire-protocol engine
(datagram framing, chunking, synchronous and lazy acknowledgment), the
`Register` abstraction (capability checks, bounds, cache) and the
signal-routing matrices of the `Scaffold` class, together with the
timeout stack.

Python exceptions are modelled by `PyError`; the specification's error
taxonomy corresponds to Python classes as follows: InvalidArgument is
`ValueError`, while CapabilityError, UsageError and NotConnected are all
`RuntimeError` (told apart by their message), and Timeout is the custom
`TimeoutError` (carrying either a written-bytes count or a partial read
buffer).  The serial transport is modelled by `Serial`: a log of sent
datagrams plus an arbitrary byte stream `rx` that the device answers
with, consumed left to right (`pos` is the read cursor).  Machine bytes
are `Nat`s; Python guarantees bytes objects hold values below 256.
-/

/-- Python exception values raised (or, for `is_connected`, returned) by the
driver code.  `timeoutWrite` is `TimeoutError(size=...)`, `timeoutRead` is
`TimeoutError(data=...)`. -/
inductive PyError where
  | valueError (msg : String)
  | runtimeError (msg : String)
  | timeoutWrite (size : Nat)
  | timeoutRead (data : List Nat)
  | assertionError
  | attributeError (attr : String)
  | overflowError
  | indexError
  | typeError
  deriving DecidableEq

instance {e a : Type} [DecidableEq e] [DecidableEq a] :
    DecidableEq (Except e a) := fun x y =>
  match x, y with
  | .ok u, .ok v =>
    match decEq u v with
    | isTrue h => isTrue (h ▸ rfl)
    | isFalse h => isFalse (fun hc => h (by cases hc; rfl))
  | .error u, .error v =>
    match decEq u v with
    | isTrue h => isTrue (h ▸ rfl)
    | isFalse h => isFalse (fun hc => h (by cases hc; rfl))
  | .ok _, .error _ => isFalse (fun hc => by cases hc)
  | .error _, .ok _ => isFalse (fun hc => by cases hc)

/-- The serial port: `sent` is the log of datagrams written so far, `rx` the
stream of bytes the device will answer, `pos` how many of them have already
been consumed by `ser.read`. -/
structure Serial where
  sent : List (List Nat)
  rx : Nat → Nat
  pos : Nat

/-- `self.ser.write(datagram)`: append one datagram to the log. -/
def Serial.send (s : Serial) (dg : List Nat) : Serial :=
  { s with sent := s.sent ++ [dg] }

/-- `self.ser.read(n)`: consume the next `n` bytes of the device stream. -/
def Serial.recv (s : Serial) (n : Nat) : List Nat × Serial :=
  ((List.range n).map (fun i => s.rx (s.pos + i)), { s with pos := s.pos + n })

/-- State of `ScaffoldBus`: optional serial port (None before `connect`),
the queue `__lazy_writes` of expected ack sizes, and the nesting depth
`__lazy_stack`. -/
structure ScaffoldBus where
  ser : Option Serial
  lazy_writes : List Nat
  lazy_stack : Nat

/-- `ScaffoldBus.prepare_datagram`: build one request datagram, after basic
argument checks.  `rw` is 1 for a write, 0 for a read; the command byte gets
bit 1 when the chunk size exceeds one and bit 2 when a poll spec is present;
the register address (and poll address) are appended big-endian. -/
def prepare_datagram (rw addr size : Nat) (poll : Option Nat) (pm pv : Nat) :
    Except PyError (List Nat) :=
  if 2 ≤ rw then .error (.valueError "Invalid rw argument")
  else if size = 0 ∨ 255 < size then .error (.valueError "Invalid size")
  else if 0x10000 ≤ addr then .error (.valueError "Invalid address")
  else match poll with
    | some p =>
      if 0x10000 ≤ p then .error (.valueError "Invalid polling address")
      else .ok ([rw ||| (if 1 < size then 2 else 0) ||| 4,
                 addr >>> 8, addr &&& 0xff, p >>> 8, p &&& 0xff, pm, pv]
                ++ (if 1 < size then [size] else []))
    | none =>
      .ok ([rw ||| (if 1 < size then 2 else 0),
            addr >>> 8, addr &&& 0xff]
           ++ (if 1 < size then [size] else []))

/-- The chunk sizes produced by the `while remaining:` loops of
`ScaffoldBus.write` / `ScaffoldBus.read`: each iteration takes
`min(MAX_CHUNK, remaining)` with `MAX_CHUNK = 255`. -/
def chunkSizes : Nat → List Nat
  | 0 => []
  | n + 1 => min 255 (n + 1) :: chunkSizes (n + 1 - min 255 (n + 1))
  termination_by n => n
  decreasing_by all_goals simp

/-- The chunks of payload sent by `ScaffoldBus.write`: consecutive slices
`data[offset:offset+chunk_size]` of at most 255 bytes. -/
def chunksOf : List Nat → List (List Nat)
  | [] => []
  | b :: bs => (b :: bs).take 255 :: chunksOf ((b :: bs).drop 255)
  termination_by data => data.length
  decreasing_by all_goals simp; all_goals omega

/-- The chunking loop of `ScaffoldBus.write`.  `d` is the current
`__lazy_stack` depth, `offset` the bytes written so far, `lw` the
`__lazy_writes` queue.  At depth 0 each chunk's acknowledgment byte is read
at once and must equal the chunk size (`assert poll is not None` on a
mismatch, then `TimeoutError(size=offset+ack)`); at positive depth the
expected size is queued instead. -/
def writeLoop (addr : Nat) (poll : Option Nat) (pm pv d : Nat) :
    List Nat → Nat → Serial → List Nat →
    Except PyError Unit × Serial × List Nat
  | [], _, s, lw => (.ok (), s, lw)
  | b :: bs, offset, s, lw =>
    let data := b :: bs
    let csize := min 255 data.length
    match prepare_datagram 1 addr csize poll pm pv with
    | .error e => (.error e, s, lw)
    | .ok dgHead =>
      let s1 := s.send (dgHead ++ data.take csize)
      if d = 0 then
        let r := s1.recv 1
        let ack := r.1.headD 0
        if ack = csize then
          writeLoop addr poll pm pv d (data.drop csize) (offset + csize) r.2 lw
        else
          match poll with
          | none => (.error .assertionError, r.2, lw)
          | some _ => (.error (.timeoutWrite (offset + ack)), r.2, lw)
      else
        writeLoop addr poll pm pv d (data.drop csize) (offset + csize) s1
          (lw ++ [csize])
  termination_by data => data.length
  decreasing_by all_goals simp

/-- `ScaffoldBus.write(addr, data, poll, poll_mask, poll_value)`. -/
def ScaffoldBus.write (bus : ScaffoldBus) (addr : Nat) (data : List Nat)
    (poll : Option Nat) (pm pv : Nat) : Except PyError Unit × ScaffoldBus :=
  match bus.ser with
  | none => (.error (.runtimeError "Not connected to board"), bus)
  | some s =>
    let r := writeLoop addr poll pm pv bus.lazy_stack data 0 s bus.lazy_writes
    (r.1, { bus with ser := some r.2.1, lazy_writes := r.2.2 })

/-- The chunking loop of `ScaffoldBus.read`: per chunk, send a read datagram
and receive `chunk_size + 1` bytes, the last being the acknowledgment count.
On a mismatch (`assert poll is not None` first) only the acknowledged
portion is appended and `TimeoutError(data=result)` is raised. -/
def readLoop (addr : Nat) (poll : Option Nat) (pm pv : Nat) :
    Nat → List Nat → Serial → Except PyError (List Nat) × Serial
  | 0, result, s => (.ok result, s)
  | remaining + 1, result, s =>
    let csize := min 255 (remaining + 1)
    match prepare_datagram 0 addr csize poll pm pv with
    | .error e => (.error e, s)
    | .ok dg =>
      let s1 := s.send dg
      let r := s1.recv (csize + 1)
      let ack := r.1.getLastD 0
      if ack = csize then
        readLoop addr poll pm pv (remaining + 1 - csize)
          (result ++ r.1.dropLast) r.2
      else
        match poll with
        | none => (.error .assertionError, r.2)
        | some _ => (.error (.timeoutRead (result ++ r.1.take ack)), r.2)
  termination_by r => r
  decreasing_by all_goals simp

/-- `ScaffoldBus.read(addr, size, poll, poll_mask, poll_value)`: refused
during lazy-update sections. -/
def ScaffoldBus.read (bus : ScaffoldBus) (addr size : Nat)
    (poll : Option Nat) (pm pv : Nat) :
    Except PyError (List Nat) × ScaffoldBus :=
  match bus.ser with
  | none => (.error (.runtimeError "Not connected to board"), bus)
  | some s =>
    if 0 < bus.lazy_stack then
      (.error
        (.runtimeError "Read operations not allowed during lazy-update section."),
       bus)
    else
      let r := readLoop addr poll pm pv size [] s
      (r.1, { bus with ser := some r.2 })

/-- Big-endian serialization: Python `value.to_bytes(n, 'big')` (given
`value < 256 ^ n`). -/
def toBytesBE : Nat → Nat → List Nat
  | 0, _ => []
  | n + 1, v => toBytesBE n (v / 256) ++ [v % 256]

/-- `ScaffoldBus.set_timeout(value)`: fixed opcode `0x08` plus 4 bytes
big-endian, no response.  Note the source uses `self.ser` without a
connection check, so a disconnected bus hits `AttributeError`. -/
def ScaffoldBus.set_timeout (bus : ScaffoldBus) (value : Int) :
    Except PyError Unit × ScaffoldBus :=
  if value < 0 ∨ 0xffffffff < value then
    (.error (.valueError "Timeout value out of range"), bus)
  else
    match bus.ser with
    | none => (.error (.attributeError "write"), bus)
    | some s =>
      (.ok (), { bus with ser := some (s.send (0x08 :: toBytesBE 4 value.toNat)) })

/-- `ScaffoldBus.lazy_start()`: one more nesting level. -/
def ScaffoldBus.lazy_start (bus : ScaffoldBus) : ScaffoldBus :=
  { bus with lazy_stack := bus.lazy_stack + 1 }

/-- The `for expected_size in self.__lazy_writes:` drain of
`ScaffoldBus.lazy_end`: read one acknowledgment byte per queued expected
size, remembering only the last mismatch as `TimeoutError(size=ack)`. -/
def drainAcks : List Nat → Serial → Option PyError → Option PyError × Serial
  | [], s, lastErr => (lastErr, s)
  | expected :: rest, s, lastErr =>
    let r := s.recv 1
    let ack := r.1.headD 0
    drainAcks rest r.2
      (if ack = expected then lastErr else some (.timeoutWrite ack))

/-- `ScaffoldBus.lazy_end()`.  Faithful to the source: the
`self.__lazy_writes.clear()` sits at method level, OUTSIDE the
`if self.__lazy_stack == 0:` block, so the queue is cleared on every call,
inner closes included.  A drain with a disconnected port would hit
`self.ser.read` on `None` (`AttributeError`), before the clear. -/
def ScaffoldBus.lazy_end (bus : ScaffoldBus) : Except PyError Unit × ScaffoldBus :=
  if bus.lazy_stack = 0 then
    (.error (.runtimeError "No lazy section started"), bus)
  else
    let b1 : ScaffoldBus := { bus with lazy_stack := bus.lazy_stack - 1 }
    if b1.lazy_stack = 0 then
      match b1.ser with
      | none =>
        match b1.lazy_writes with
        | [] => (.ok (), { b1 with lazy_writes := [] })
        | _ :: _ => (.error (.attributeError "read"), b1)
      | some s =>
        let r := drainAcks b1.lazy_writes s none
        let b2 : ScaffoldBus := { b1 with ser := some r.2, lazy_writes := [] }
        match r.1 with
        | some e => (.error e, b2)
        | none => (.ok (), b2)
    else
      (.ok (), { b1 with lazy_writes := [] })

/-- State of one `Register`: capabilities parsed from the mode string
(`'w'`, `'r'`, `'v'`), address, wideness, bounds and the value cache. -/
structure Register where
  w : Bool
  r : Bool
  volatile : Bool
  address : Nat
  wideness : Nat
  min_value : Nat
  max_value : Nat
  cache : Option Nat

/-- The checks `Register.__init__` performs, hence invariants of every
constructed register: address in range, wideness at least 1 (and 1 whenever
the register is readable), bounds representable in `wideness` bytes and
ordered. -/
def Register.WF (reg : Register) : Prop :=
  reg.address < 0x10000 ∧ 1 ≤ reg.wideness ∧ (reg.r = true → reg.wideness = 1) ∧
  reg.min_value < 2 ^ (reg.wideness * 8) ∧ reg.max_value < 2 ^ (reg.wideness * 8) ∧
  reg.min_value ≤ reg.max_value

instance (reg : Register) : Decidable reg.WF := by
  unfold Register.WF; infer_instance

/-- `Register.set(value, poll, poll_mask, poll_value)`: bounds are checked
first (`ValueError`), then writability (`RuntimeError`); the value is
serialized to `wideness` big-endian bytes (Python raises `OverflowError` if
it does not fit), written through the bus, and only then cached. -/
def Register.set (reg : Register) (bus : ScaffoldBus) (value : Nat)
    (poll : Option Nat) (pm pv : Nat) :
    Except PyError Unit × Register × ScaffoldBus :=
  if value < reg.min_value then (.error (.valueError "Value too low"), reg, bus)
  else if reg.max_value < value then
    (.error (.valueError "Value too high"), reg, bus)
  else if reg.w = false then
    (.error (.runtimeError "Register cannot be written"), reg, bus)
  else if 2 ^ (reg.wideness * 8) ≤ value then (.error .overflowError, reg, bus)
  else
    let r := bus.write reg.address (toBytesBE reg.wideness value) poll pm pv
    match r.1 with
    | .error e => (.error e, reg, r.2)
    | .ok _ => (.ok (), { reg with cache := some value }, r.2)

/-- `Register.get()`: a volatile register must be readable and is always
read afresh (1 byte, no caching); a non-volatile register returns its cache
when populated, otherwise reads and caches when readable, otherwise fails.
`[0]` on an empty bytearray would be an `IndexError`. -/
def Register.get (reg : Register) (bus : ScaffoldBus) :
    Except PyError Nat × Register × ScaffoldBus :=
  if reg.volatile then
    if reg.r = false then
      (.error (.runtimeError "Register cannot be read"), reg, bus)
    else
      let r := bus.read reg.address 1 none 0xff 0x00
      match r.1 with
      | .error e => (.error e, reg, r.2)
      | .ok [] => (.error .indexError, reg, r.2)
      | .ok (b :: _) => (.ok b, reg, r.2)
  else
    match reg.cache with
    | some v => (.ok v, reg, bus)
    | none =>
      if reg.r then
        let r := bus.read reg.address 1 none 0xff 0x00
        match r.1 with
        | .error e => (.error e, reg, r.2)
        | .ok [] => (.error .indexError, reg, r.2)
        | .ok (b :: _) => (.ok b, { reg with cache := some b }, r.2)
      else (.error (.runtimeError "Register cannot be read"), reg, bus)

/-- Python `current & ~mask` on nonnegative ints (infinite-precision
two's complement): clearing the bits of `mask` in `current`, which equals
subtracting the common bits `current &&& mask`. -/
def pyAndNot (current mask : Nat) : Nat :=
  current - (current &&& mask)

/-- `Register.or_set(value)`: read-modify-write composition `set(get() | value)`. -/
def Register.or_set (reg : Register) (bus : ScaffoldBus) (value : Nat) :
    Except PyError Unit × Register × ScaffoldBus :=
  let g := reg.get bus
  match g.1 with
  | .error e => (.error e, g.2)
  | .ok cur => g.2.1.set g.2.2 (cur ||| value) none 0xff 0x00

/-- `Register.set_bit(index, value, ...)`: `set((get() & ~(1 << index)) |
(int(bool(value)) << index))`. -/
def Register.set_bit (reg : Register) (bus : ScaffoldBus) (index : Nat)
    (value : Bool) (poll : Option Nat) (pm pv : Nat) :
    Except PyError Unit × Register × ScaffoldBus :=
  let g := reg.get bus
  match g.1 with
  | .error e => (.error e, g.2)
  | .ok cur =>
    g.2.1.set g.2.2 (pyAndNot cur (1 <<< index) ||| ((if value then 1 else 0) <<< index))
      poll pm pv

/-- `Register.get_bit(index)`: `(get() >> index) & 1`. -/
def Register.get_bit (reg : Register) (bus : ScaffoldBus) (index : Nat) :
    Except PyError Nat × Register × ScaffoldBus :=
  let g := reg.get bus
  match g.1 with
  | .error e => (.error e, g.2)
  | .ok cur => (.ok ((cur >>> index) &&& 1), g.2)

/-- `Register.set_mask(value, mask, ...)`: `set((get() & ~mask) | (value & mask))`. -/
def Register.set_mask (reg : Register) (bus : ScaffoldBus) (value mask : Nat)
    (poll : Option Nat) (pm pv : Nat) :
    Except PyError Unit × Register × ScaffoldBus :=
  let g := reg.get bus
  match g.1 with
  | .error e => (.error e, g.2)
  | .ok cur => g.2.1.set g.2.2 (pyAndNot cur mask ||| (value &&& mask)) poll pm pv

/-- Cache discipline of a composite register operation: afterwards the
register's cache is the original cache, a byte confirmed by the inner
`get`'s bus read, or (when the operation succeeded, i.e. its final
`set`'s bus write was acknowledged) the value that successful `set`
cached. -/
def cacheFrom (reg : Register) (bus : ScaffoldBus)
    (r : Except PyError Unit × Register × ScaffoldBus) : Prop :=
  r.2.1.cache = reg.cache
  ∨ (∃ b, (reg.get bus).1 = .ok b ∧ r.2.1.cache = some b)
  ∨ (r.1 = .ok () ∧ ∃ u, r.2.1.cache = some u)

/-- FPGA left matrix input signals (`Scaffold.__init__`: `mtxl_in`). -/
def mtxl_in : List String :=
  ["0", "1", "/io/a0", "/io/a1", "/io/b0", "/io/b1", "/io/c0", "/io/c1"]
  ++ (List.range 16).map (fun i => s!"/io/d{i}")

/-- FPGA left matrix output signals (`Scaffold.__init__`: `mtxl_out`). -/
def mtxl_out : List String :=
  (List.range 2).map (fun i => s!"/uart{i}/rx")
  ++ ["/iso7816/io_in"]
  ++ (List.range 4).map (fun i => s!"/pgen{i}/start")
  ++ ["/i2c0/sda_in", "/i2c0/scl_in"]

/-- FPGA right matrix input signals (`Scaffold.__init__`: `mtxr_in`). -/
def mtxr_in : List String :=
  ["z", "0", "1", "/power/dut_trigger", "/power/platform_trigger"]
  ++ (List.range 2).flatMap (fun i => [s!"/uart{i}/tx", s!"/uart{i}/trigger"])
  ++ ["/iso7816/io_out", "/iso7816/clk", "/iso7816/trigger"]
  ++ (List.range 4).map (fun i => s!"/pgen{i}/out")
  ++ ["/i2c0/sda_out", "/i2c0/scl_out", "/i2c0/trigger"]

/-- FPGA right matrix output signals (`Scaffold.__init__`: `mtxr_out`). -/
def mtxr_out : List String :=
  ["/io/a0", "/io/a1", "/io/b0", "/io/b1", "/io/c0", "/io/c1"]
  ++ (List.range 16).map (fun i => s!"/io/d{i}")

/-- `Scaffold.__ADDR_MTXR_BASE`. -/
def ADDR_MTXR_BASE : Nat := 0xf100

/-- `Scaffold.__ADDR_MTXL_BASE`. -/
def ADDR_MTXL_BASE : Nat := 0xf000

/-- `Scaffold.sig_connect(a, b)` on already-resolved path strings:
destination resolved against `mtxr_out` first, then `mtxl_out`; the matching
input table yields the source index written (one byte) to the matrix base
plus the destination index.  `list.index` on an absent source raises
`ValueError`; an unresolved destination raises `RuntimeError` (the source
comments it as a shall-never-happen internal case). -/
def sig_connect (bus : ScaffoldBus) (dest_path src_path : String) :
    Except PyError Unit × ScaffoldBus :=
  if dest_path ∈ mtxr_out then
    if src_path ∈ mtxr_in then
      bus.write (ADDR_MTXR_BASE + mtxr_out.indexOf dest_path)
        [mtxr_in.indexOf src_path] none 0xff 0x00
    else (.error (.valueError "is not in list"), bus)
  else if dest_path ∈ mtxl_out then
    if src_path ∈ mtxl_in then
      bus.write (ADDR_MTXL_BASE + mtxl_out.indexOf dest_path)
        [mtxl_in.indexOf src_path] none 0xff 0x00
    else (.error (.valueError "is not in list"), bus)
  else
    (.error (.runtimeError ("Invalid destination path " ++ dest_path)), bus)

/-- Number of binary digits of a natural number (`0` for `0`), computed by
fueled halving so that the kernel can evaluate it; fuel 320 covers every
number below `2 ^ 320`, far beyond anything the timeout arithmetic
produces. -/
def bitLenAux : Nat → Nat → Nat
  | 0, _ => 0
  | fuel + 1, n => if n = 0 then 0 else bitLenAux fuel (n / 2) + 1

def bitLen (n : Nat) : Nat := bitLenAux 320 n

/-- `a / b` (with `b > 0`) rounded to the nearest integer, ties to even. -/
def divRound (a b : Nat) : Nat :=
  let q := a / b
  let r := a % b
  if 2 * r < b then q
  else if b < 2 * r then q + 1
  else if q % 2 = 0 then q else q + 1

/-- An IEEE-754 binary64 value (a Python `float`), held exactly as
`m * 2 ^ e`.  The operations below keep `|m|` in `[2 ^ 52, 2 ^ 53)` (or
`m = 0`), the normalised double significand.  Overflow, subnormals,
infinities and NaN never arise in the driver's timeout arithmetic and are
not modelled. -/
structure PyFloat where
  m : Int
  e : Int
  deriving DecidableEq

/-- The positive rational `a / b` correctly rounded to 53 significant bits
(round to nearest, ties to even): the quotient is scaled by the power of
two suggested by the operand bit lengths so that it lies in
`[2 ^ 52, 2 ^ 54)`, rounded there, and rescaled one bit coarser when the
first rounding position turns out too fine. -/
def flOfPos (a b : Nat) : PyFloat :=
  let k : Int := 53 + (bitLen b : Int) - (bitLen a : Int)
  let q0 := if 0 ≤ k then divRound (a * 2 ^ k.toNat) b
            else divRound a (b * 2 ^ (-k).toNat)
  if q0 < 2 ^ 53 then ⟨(q0 : Int), -k⟩
  else
    let q1 := if 0 ≤ k - 1 then divRound (a * 2 ^ (k - 1).toNat) b
              else divRound a (b * 2 ^ (1 - k).toNat)
    if q1 < 2 ^ 53 then ⟨(q1 : Int), 1 - k⟩ else ⟨2 ^ 52, 2 - k⟩

/-- `fl(n / d)`: the binary64 double nearest to the rational `n / d` (ties
to even), for `d ≠ 0`. -/
def flOfRat (n d : Int) : PyFloat :=
  if n = 0 ∨ d = 0 then ⟨0, 0⟩
  else if (0 < n ∧ 0 < d) ∨ (n < 0 ∧ d < 0) then flOfPos n.natAbs d.natAbs
  else
    let p := flOfPos n.natAbs d.natAbs
    ⟨-p.m, p.e⟩

/-- Conversion of a Python `int` to a float: exact below `2 ^ 53` (every
cached unit count fits, being at most `0xffffffff`), correctly rounded
beyond. -/
def PyFloat.ofInt (n : Int) : PyFloat := flOfRat n 1

/-- Python float multiplication: the exact product of the two doubles,
correctly rounded back to a double. -/
def PyFloat.mul (x y : PyFloat) : PyFloat :=
  let e := x.e + y.e
  if 0 ≤ e then flOfRat (x.m * y.m * 2 ^ e.toNat) 1
  else flOfRat (x.m * y.m) (2 ^ (-e).toNat)

/-- Python float division: the exact quotient of the two doubles,
correctly rounded back to a double. -/
def PyFloat.div (x y : PyFloat) : PyFloat :=
  let e := x.e - y.e
  if 0 ≤ e then flOfRat (x.m * 2 ^ e.toNat) y.m
  else flOfRat x.m (y.m * 2 ^ (-e).toNat)

/-- Python `int()` applied to a float: truncation toward zero
(`Int.tdiv` is truncating division). -/
def PyFloat.toInt (x : PyFloat) : Int :=
  if 0 ≤ x.e then x.m * 2 ^ x.e.toNat
  else x.m.tdiv (2 ^ (-x.e).toNat)

/-- `Scaffold.__TIMEOUT_UNIT = 3.0 / SYS_FREQ` with `SYS_FREQ = 100e6`:
`3.0` and `100e6 = 10 ^ 8` are exact doubles, and the quotient is the
correctly rounded double `4533471823554859 * 2 ^ (-77)` — not the exact
rational `3 / 10 ^ 8`. -/
def TIMEOUT_UNIT : PyFloat := flOfRat 3 100000000

/-- The getter's product `self.__cache_timeout * self.__TIMEOUT_UNIT`: the
unit count is converted to a double and multiplied by the unit in binary64
arithmetic. -/
def effTimeout (n : Int) : PyFloat := (PyFloat.ofInt n).mul TIMEOUT_UNIT

/-- The setter's quantisation `int(value / self.__TIMEOUT_UNIT)`: binary64
division by the unit, then truncation toward zero. -/
def timeoutUnits (value : PyFloat) : Int := (value.div TIMEOUT_UNIT).toInt

/-- A Python value that is either a float (a number of seconds) or an
exception object: the `timeout` property getter RETURNS (instead of
raising) a `RuntimeError` object when no timeout has been set, and that
object is what `push_timeout` would place on the stack. -/
inductive PyVal where
  | num (x : PyFloat)
  | exc (e : PyError)
  deriving DecidableEq

/-- The `Scaffold`-level state the timeout controller needs: the bus, the
`__cache_timeout` unit count and the `__timeout_stack`. -/
structure ScaffoldSt where
  bus : ScaffoldBus
  cache_timeout : Option Int
  timeout_stack : List PyVal

/-- The `Scaffold.timeout` property getter: `__cache_timeout *
__TIMEOUT_UNIT` in binary64 arithmetic, or a returned (not raised)
`RuntimeError` object when the cache is unset. -/
def ScaffoldSt.timeout_get (sc : ScaffoldSt) : PyVal :=
  match sc.cache_timeout with
  | none => .exc (.runtimeError "Timeout not set yet")
  | some n => .num (effTimeout n)

/-- The `Scaffold.timeout` property setter: convert seconds to device units
with `int(value / __TIMEOUT_UNIT)` (binary64 division, then truncation),
forward to `ScaffoldBus.set_timeout` (which may raise), and only then
update the cache. -/
def ScaffoldSt.timeout_set (sc : ScaffoldSt) (value : PyFloat) :
    Except PyError Unit × ScaffoldSt :=
  let n := timeoutUnits value
  let r := sc.bus.set_timeout n
  match r.1 with
  | .error e => (.error e, { sc with bus := r.2 })
  | .ok _ => (.ok (), { sc with bus := r.2, cache_timeout := some n })

/-- `Scaffold.push_timeout(value)`: append the current getter value to the
stack, then apply the new value through the setter. -/
def ScaffoldSt.push_timeout (sc : ScaffoldSt) (value : PyFloat) :
    Except PyError Unit × ScaffoldSt :=
  let sc1 : ScaffoldSt :=
    { sc with timeout_stack := sc.timeout_stack ++ [sc.timeout_get] }
  sc1.timeout_set value

/-- `Scaffold.pop_timeout()`: `RuntimeError` on an empty stack; otherwise
remove the last entry and apply it through the setter (a stacked exception
object would make `int()` raise `TypeError`). -/
def ScaffoldSt.pop_timeout (sc : ScaffoldSt) :
    Except PyError Unit × ScaffoldSt :=
  match sc.timeout_stack.getLast? with
  | none => (.error (.runtimeError "Timeout setting stack is empty"), sc)
  | some v =>
    let sc1 : ScaffoldSt := { sc with timeout_stack := sc.timeout_stack.dropLast }
    match v with
    | .num x => sc1.timeout_set x
    | .exc _ => (.error .typeError, sc1)

/-- The attribute names a `ScaffoldBus` instance resolves: the class-level
members (`MAX_CHUNK`, the methods, the `is_connected` property) and the
instance attributes assigned in `__init__` (`ser` and the name-mangled
`__lazy_writes` / `__lazy_stack`).  No attribute named `set` exists and
none is ever assigned elsewhere in the source. -/
def scaffoldBusAttributeNames : List String :=
  ["MAX_CHUNK", "connect", "prepare_datagram", "write", "read", "set_timeout",
   "is_connected", "lazy_start", "lazy_end", "lazy_section",
   "ser", "_ScaffoldBus__lazy_writes", "_ScaffoldBus__lazy_stack"]

/-- The `ScaffoldBus.is_connected` property: `return self.set is not None`.
Attribute lookup of `self.set` is modelled against
`scaffoldBusAttributeNames`; since `set` is not among them, Python raises
`AttributeError` and the comparison (the `then` branch, whose value is
immaterial dead code) is never reached. -/
def ScaffoldBus.is_connected (bus : ScaffoldBus) : Except PyError Bool :=
  if "set" ∈ scaffoldBusAttributeNames then .ok (bus.ser.isSome)
  else .error (.attributeError "set")

/-- Datagram layout as the specification words it (§6): command byte
`rw + multi-chunk-bit + poll-bit`, big-endian 16-bit address written as
quotient and remainder by 256, the poll fields exactly when a poll spec is
present, and an explicit size byte exactly when the size exceeds one. -/
def specHeader (rw addr : Nat) (poll : Option Nat) (pm pv size : Nat) :
    List Nat :=
  [rw + (if 1 < size then 2 else 0) + (if poll.isSome then 4 else 0),
   addr / 256, addr % 256]
  ++ (match poll with | some p => [p / 256, p % 256, pm, pv] | none => [])
  ++ (if 1 < size then [size] else [])

/-- One write-chunk datagram as the specification words it: the header for
the chunk's length followed by the chunk's payload bytes. -/
def specChunkDatagram (addr : Nat) (poll : Option Nat) (pm pv : Nat)
    (chunk : List Nat) : List Nat :=
  specHeader 1 addr poll pm pv chunk.length ++ chunk

/-- Validity of a poll argument: absent, or an in-range 16-bit address. -/
def pollOk : Option Nat → Prop
  | none => True
  | some p => p < 0x10000

instance : ∀ o, Decidable (pollOk o) := fun o =>
  match o with
  | none => inferInstanceAs (Decidable True)
  | some p => inferInstanceAs (Decidable (p < 0x10000))

/-- Classifier for the spec's InvalidArgument bucket (Python `ValueError`). -/
def isInvalidArgument : PyError → Bool
  | .valueError _ => true
  | _ => false

/-- Classifier for the spec's Timeout bucket (Python `TimeoutError`). -/
def isTimeout : PyError → Bool
  | .timeoutWrite _ => true
  | .timeoutRead _ => true
  | _ => false

/-- Datagram log of a bus, when connected. -/
def ScaffoldBus.sentLog (bus : ScaffoldBus) : Option (List (List Nat)) :=
  bus.ser.map Serial.sent

/-- Number of device bytes consumed so far, when connected. -/
def ScaffoldBus.rxConsumed (bus : ScaffoldBus) : Option Nat :=
  bus.ser.map Serial.pos

/-- A serial port after `dgs` more datagrams have been sent and `consumed`
more device bytes have been read. -/
def Serial.afterWrite (s : Serial) (dgs : List (List Nat)) (consumed : Nat) : Serial :=
  ⟨s.sent ++ dgs, s.rx, s.pos + consumed⟩

/-- Start position (in the device byte stream) of the response to read
chunk `k`, when the chunk sizes are `sizes`: each earlier chunk consumes its
size plus one acknowledgment byte. -/
def chunkStart (pos : Nat) : List Nat → Nat → Nat
  | _, 0 => pos
  | [], _ + 1 => pos
  | c :: rest, k + 1 => chunkStart (pos + (c + 1)) rest k

/-- The payload bytes accumulated by `ScaffoldBus.read` over the first `k`
chunks (each chunk contributes its `c` payload bytes, skipping the
acknowledgment byte). -/
def collectedData (rx : Nat → Nat) (pos : Nat) : List Nat → Nat → List Nat
  | _, 0 => []
  | [], _ + 1 => []
  | c :: rest, k + 1 =>
    (List.range c).map (fun t => rx (pos + t))
      ++ collectedData rx (pos + (c + 1)) rest k

/-- Fixture: a fresh serial port whose device answers every read with the
byte `a`. -/
def fixSerial (a : Nat) : Serial := ⟨[], fun _ => a, 0⟩

/-- Fixture: a serial port answering the first read with `b0` and every
later read with `a`. -/
def fixSerial2 (b0 a : Nat) : Serial := ⟨[], fun i => if i = 0 then b0 else a, 0⟩

/-- Fixture: a connected bus at batching depth `d`, empty queue, device
answering every read with `a`. -/
def fixBus (a d : Nat) : ScaffoldBus := ⟨some (fixSerial a), [], d⟩

/-- Fixture: a connected bus whose device answers the first read with `b0`
and later reads with `a`. -/
def fixBus2 (b0 a : Nat) : ScaffoldBus := ⟨some (fixSerial2 b0 a), [], 0⟩

/-- Fixture: a bus that was never connected, at batching depth `d`. -/
def fixBusNone (d : Nat) : ScaffoldBus := ⟨none, [], d⟩

/-- Fixture for the nested lazy-section scenario: a connected bus inside
two lazy sections (`lazy_start(); lazy_start()`), with one write already
queued (expected acknowledgment size 1) and a device that answers every
read with 0 (so the queued write's acknowledgment would NOT match). -/
def c1bus : ScaffoldBus := ⟨some (fixSerial 0), [1], 2⟩

/-- Fixture for the single-level flush scenario of the spec: queued
expected sizes [10, 10, 5] inside one lazy section, device acknowledgments
10, 10, 3. -/
def c1busFlush : ScaffoldBus :=
  ⟨some ⟨[], fun i => if i < 2 then 10 else 3, 0⟩, [10, 10, 5], 1⟩

/-- Fixture: mode `'w'` register of wideness 2. -/
def regW2 : Register := ⟨true, false, false, 0x0300, 2, 0, 0xffff, none⟩

/-- Fixture: mode `'wv'` (writable, volatile) register. -/
def regWV : Register := ⟨true, false, true, 0x0301, 1, 0, 255, none⟩

/-- Fixture: mode `'r'` register. -/
def regR : Register := ⟨false, true, false, 0x0302, 1, 0, 255, none⟩

/-- Fixture: mode `'rv'` (readable, volatile) register. -/
def regRV : Register := ⟨false, true, true, 0x0303, 1, 0, 255, none⟩

/-- Fixture: register with no capabilities and bounds [0, 10]. -/
def regNoRW : Register := ⟨false, false, false, 0x0304, 1, 0, 10, none⟩

/-- Fixture: mode `'r'` register whose cache already holds 7. -/
def regRC : Register := ⟨false, true, false, 0x0305, 1, 0, 255, some 7⟩

/-- Fixture: a Scaffold state with a connected bus, timeout cache set to
1000 units and an empty timeout stack. -/
def fixScaffold : ScaffoldSt := ⟨fixBus 0 0, some 1000, []⟩

/-- Fixture: a Scaffold state with a connected bus, no timeout set yet and
an empty timeout stack. -/
def fixScaffoldNone : ScaffoldSt := ⟨fixBus 0 0, none, []⟩

lemma Serial.recv_one (s : Serial) :
    s.recv 1 = ([s.rx s.pos], { s with pos := s.pos + 1 }) := by
  simp [Serial.recv, List.range_succ]

lemma prepare_datagram_ok (rw addr size : Nat) (poll : Option Nat)
    (pm pv : Nat) (hrw : rw < 2) (h1 : 1 ≤ size) (h2 : size ≤ 255)
    (haddr : addr < 0x10000) (hpoll : pollOk poll) :
    prepare_datagram rw addr size poll pm pv =
      .ok (specHeader rw addr poll pm pv size) := by
  have hsr : addr >>> 8 = addr / 256 := by
    have := Nat.shiftRight_eq_div_pow addr 8
    norm_num at this; exact this
  have hand : addr &&& 0xff = addr % 256 := by
    have := Nat.and_pow_two_sub_one_eq_mod addr 8
    norm_num at this; exact this
  have h0 : ¬ 2 ≤ rw := by omega
  have hsz : ¬ (size = 0 ∨ 255 < size) := by omega
  have ha : ¬ 0x10000 ≤ addr := by omega
  have or12 : (1 : Nat) ||| 2 = 3 := by decide
  have or14 : (1 : Nat) ||| 4 = 5 := by decide
  have or34 : (3 : Nat) ||| 4 = 7 := by decide
  have or24 : (2 : Nat) ||| 4 = 6 := by decide
  cases poll with
  | none =>
    rcases (by omega : rw = 0 ∨ rw = 1) with h | h <;> subst h <;>
      by_cases hs : 1 < size <;>
      simp [prepare_datagram, specHeader, h0, hsz, ha, hs, hsr, hand,
        or12, or14, or34, or24]
  | some p =>
    have hpsr : p >>> 8 = p / 256 := by
      have := Nat.shiftRight_eq_div_pow p 8
      norm_num at this; exact this
    have hpand : p &&& 0xff = p % 256 := by
      have := Nat.and_pow_two_sub_one_eq_mod p 8
      norm_num at this; exact this
    have hp : ¬ 0x10000 ≤ p := by
      have : p < 0x10000 := hpoll
      omega
    rcases (by omega : rw = 0 ∨ rw = 1) with h | h <;> subst h <;>
      by_cases hs : 1 < size <;>
      simp [prepare_datagram, specHeader, h0, hsz, ha, hp, hs, hsr, hand,
        hpsr, hpand, or12, or14, or34, or24]

lemma chunkSizes_succ (n : Nat) :
    chunkSizes (n + 1) = min 255 (n + 1) :: chunkSizes (n + 1 - min 255 (n + 1)) := by
  rw [chunkSizes]

lemma chunksOf_cons (b : Nat) (bs : List Nat) :
    chunksOf (b :: bs) = (b :: bs).take 255 :: chunksOf ((b :: bs).drop 255) := by
  rw [chunksOf]

lemma take_min_255 (data : List Nat) :
    data.take (min 255 data.length) = data.take 255 := by
  rcases le_total data.length 255 with h | h
  · rw [min_eq_right h, List.take_length, List.take_of_length_le h]
  · rw [min_eq_left h]

lemma drop_min_255 (data : List Nat) :
    data.drop (min 255 data.length) = data.drop 255 := by
  rcases le_total data.length 255 with h | h
  · rw [min_eq_right h, List.drop_length, List.drop_eq_nil_of_le h]
  · rw [min_eq_left h]

/-- The chunk-size sequence in closed form: `n / 255` full chunks plus a
final remainder chunk. -/
lemma chunkSizes_eq (n : Nat) :
    chunkSizes n =
      List.replicate (n / 255) 255 ++ (if n % 255 = 0 then [] else [n % 255]) := by
  induction n using Nat.strong_induction_on with
  | _ n ih =>
    match n with
    | 0 => simp [chunkSizes]
    | m + 1 =>
      rw [chunkSizes_succ]
      rcases le_or_lt (m + 1) 255 with h | h
      · rcases Nat.lt_or_ge (m + 1) 255 with h2 | h2
        · have hd : (m + 1) / 255 = 0 := Nat.div_eq_of_lt h2
          have hm : (m + 1) % 255 = m + 1 := Nat.mod_eq_of_lt h2
          rw [min_eq_right h]
          simp [hd, hm, chunkSizes]
        · rw [show m + 1 = 255 from by omega]
          norm_num [chunkSizes]
      · rw [min_eq_left (by omega)]
        rw [ih (m + 1 - 255) (by omega)]
        have hd : (m + 1) / 255 = (m + 1 - 255) / 255 + 1 := by omega
        have hm : (m + 1) % 255 = (m + 1 - 255) % 255 := by omega
        rw [hd, hm, List.replicate_succ]
        simp

lemma chunkSizes_map_length_aux :
    ∀ (n : Nat) (data : List Nat), data.length = n →
      (chunksOf data).map List.length = chunkSizes data.length := by
  intro n
  induction n using Nat.strong_induction_on with
  | _ n ih =>
    intro data hlen
    match data with
    | [] => simp [chunksOf, chunkSizes]
    | b :: bs =>
      subst hlen
      rw [chunksOf_cons]
      simp only [List.map_cons, List.length_take]
      rw [ih ((b :: bs).drop 255).length (by simp; omega) _ rfl]
      rw [List.length_drop]
      simp only [List.length_cons]
      rw [chunkSizes_succ]
      rw [show bs.length + 1 - 255 = bs.length + 1 - min 255 (bs.length + 1) from by
        omega]

lemma chunkSizes_map_length (data : List Nat) :
    (chunksOf data).map List.length = chunkSizes data.length :=
  chunkSizes_map_length_aux data.length data rfl

lemma chunksOf_flatten_aux :
    ∀ (n : Nat) (data : List Nat), data.length = n →
      (chunksOf data).flatten = data := by
  intro n
  induction n using Nat.strong_induction_on with
  | _ n ih =>
    intro data hlen
    match data with
    | [] => simp [chunksOf]
    | b :: bs =>
      subst hlen
      rw [chunksOf_cons]
      simp only [List.flatten_cons]
      rw [ih ((b :: bs).drop 255).length (by simp; omega) _ rfl,
        List.take_append_drop]

lemma chunksOf_flatten (data : List Nat) : (chunksOf data).flatten = data :=
  chunksOf_flatten_aux data.length data rfl

lemma writeLoop_lazy_aux (addr : Nat) (poll : Option Nat) (pm pv d : Nat)
    (hd : d ≠ 0) (haddr : addr < 0x10000) (hpoll : pollOk poll) :
    ∀ (n : Nat) (data : List Nat), data.length = n →
    ∀ (offset : Nat) (s : Serial) (lw : List Nat),
      writeLoop addr poll pm pv d data offset s lw =
        (.ok (),
         { s with sent := s.sent ++
             (chunksOf data).map (specChunkDatagram addr poll pm pv) },
         lw ++ chunkSizes data.length) := by
  intro n
  induction n using Nat.strong_induction_on with
  | _ n ih =>
    intro data hlen offset s lw
    match data with
    | [] => simp [writeLoop, chunksOf, chunkSizes]
    | b :: bs =>
      subst hlen
      have hmin1 : 1 ≤ min 255 (b :: bs).length := by simp
      have hmin2 : min 255 (b :: bs).length ≤ 255 := by omega
      rw [writeLoop,
        prepare_datagram_ok 1 addr _ poll pm pv (by omega) hmin1 hmin2 haddr hpoll]
      simp only [if_neg hd, take_min_255, drop_min_255]
      rw [ih ((b :: bs).drop 255).length (by simp; omega) _ rfl]
      rw [chunksOf_cons]
      simp only [List.length_cons, List.length_drop]
      rw [chunkSizes_succ]
      rw [show bs.length + 1 - min 255 (bs.length + 1) = bs.length + 1 - 255 from by
        omega]
      simp [specChunkDatagram, Serial.send, List.length_take, List.append_assoc]
      congr 1
      omega

lemma writeLoop_lazy (addr : Nat) (poll : Option Nat) (pm pv d : Nat)
    (hd : d ≠ 0) (haddr : addr < 0x10000) (hpoll : pollOk poll)
    (data : List Nat) (offset : Nat) (s : Serial) (lw : List Nat) :
    writeLoop addr poll pm pv d data offset s lw =
      (.ok (),
       { s with sent := s.sent ++
           (chunksOf data).map (specChunkDatagram addr poll pm pv) },
       lw ++ chunkSizes data.length) :=
  writeLoop_lazy_aux addr poll pm pv d hd haddr hpoll data.length data rfl offset s lw

lemma writeLoop_ok_aux (addr : Nat) (poll : Option Nat) (pm pv : Nat)
    (haddr : addr < 0x10000) (hpoll : pollOk poll) :
    ∀ (n : Nat) (data : List Nat), data.length = n →
    ∀ (offset : Nat) (s : Serial) (lw : List Nat),
      (∀ i, i < (chunkSizes data.length).length →
        s.rx (s.pos + i) = (chunkSizes data.length).getD i 0) →
      writeLoop addr poll pm pv 0 data offset s lw =
        (.ok (),
         s.afterWrite ((chunksOf data).map (specChunkDatagram addr poll pm pv))
           (chunkSizes data.length).length,
         lw) := by
  intro n
  induction n using Nat.strong_induction_on with
  | _ n ih =>
    intro data hlen offset s lw hack
    match data with
    | [] => simp [writeLoop, chunksOf, chunkSizes, Serial.afterWrite]
    | b :: bs =>
      subst hlen
      have hmin1 : 1 ≤ min 255 (b :: bs).length := by simp
      have hmin2 : min 255 (b :: bs).length ≤ 255 := by omega
      have hshift : bs.length + 1 - min 255 (bs.length + 1) = bs.length + 1 - 255 := by
        omega
      rw [writeLoop,
        prepare_datagram_ok 1 addr _ poll pm pv (by omega) hmin1 hmin2 haddr hpoll]
      have hack0 : s.rx s.pos = min 255 (b :: bs).length := by
        have h0 := hack 0 ?_
        · rw [List.length_cons, chunkSizes_succ] at h0
          simpa using h0
        · rw [List.length_cons, chunkSizes_succ]
          simp
      simp only [Serial.send, Serial.recv_one, List.headD_cons, take_min_255,
        drop_min_255, eq_self_iff_true, if_true]
      rw [if_pos hack0]
      have hrec := ih ((b :: bs).drop 255).length (by simp; omega) _ rfl
        (offset + min 255 (b :: bs).length)
        (Serial.afterWrite s
          [specHeader 1 addr poll pm pv (min 255 (b :: bs).length) ++ (b :: bs).take 255] 1)
        lw ?hyp
      case hyp =>
        intro i hi
        simp only [Serial.afterWrite, List.length_drop, List.length_cons] at hi ⊢
        have hnext := hack (i + 1) ?_
        · simp only [List.length_cons] at hnext
          rw [chunkSizes_succ] at hnext
          simp only [List.getD_cons_succ] at hnext
          rw [hshift] at hnext
          rw [show s.pos + 1 + i = s.pos + (i + 1) from by omega]
          exact hnext
        · simp only [List.length_cons]
          rw [chunkSizes_succ]
          simp only [List.length_cons]
          rw [hshift]
          omega
      simp only [Serial.afterWrite, List.length_drop, List.length_cons] at hrec ⊢
      rw [hrec]
      rw [chunksOf_cons]
      rw [chunkSizes_succ, hshift]
      simp [specChunkDatagram, Serial.afterWrite, List.length_take, List.append_assoc]
      constructor
      · congr 1
        omega
      · omega

lemma writeLoop_ok (addr : Nat) (poll : Option Nat) (pm pv : Nat)
    (haddr : addr < 0x10000) (hpoll : pollOk poll)
    (data : List Nat) (offset : Nat) (s : Serial) (lw : List Nat)
    (hack : ∀ i, i < (chunkSizes data.length).length →
      s.rx (s.pos + i) = (chunkSizes data.length).getD i 0) :
    writeLoop addr poll pm pv 0 data offset s lw =
      (.ok (),
       s.afterWrite ((chunksOf data).map (specChunkDatagram addr poll pm pv))
         (chunkSizes data.length).length,
       lw) :=
  writeLoop_ok_aux addr poll pm pv haddr hpoll data.length data rfl offset s lw hack

lemma Serial.afterWrite_afterWrite (s : Serial) (dgs1 : List (List Nat))
    (c1 : Nat) (dgs2 : List (List Nat)) (c2 : Nat) :
    (s.afterWrite dgs1 c1).afterWrite dgs2 c2 =
      s.afterWrite (dgs1 ++ dgs2) (c1 + c2) := by
  simp [Serial.afterWrite, List.append_assoc, Nat.add_assoc]

lemma writeLoop_timeout (addr p pm pv : Nat) (haddr : addr < 0x10000)
    (hp : p < 0x10000) :
    ∀ (k : Nat) (data : List Nat) (offset : Nat) (s : Serial) (lw : List Nat),
      (∀ i, i < k → s.rx (s.pos + i) = (chunkSizes data.length).getD i 0) →
      k < (chunkSizes data.length).length →
      s.rx (s.pos + k) ≠ (chunkSizes data.length).getD k 0 →
      writeLoop addr (some p) pm pv 0 data offset s lw =
        (.error (.timeoutWrite
           (offset + ((chunkSizes data.length).take k).sum + s.rx (s.pos + k))),
         s.afterWrite
           (((chunksOf data).take (k + 1)).map (specChunkDatagram addr (some p) pm pv))
           (k + 1),
         lw) := by
  intro k
  induction k with
  | zero =>
    intro data offset s lw hprev hk hbad
    match data with
    | [] => simp [chunkSizes] at hk
    | b :: bs =>
      have hmin1 : 1 ≤ min 255 (b :: bs).length := by simp
      have hmin2 : min 255 (b :: bs).length ≤ 255 := by omega
      rw [writeLoop,
        prepare_datagram_ok 1 addr _ (some p) pm pv (by omega) hmin1 hmin2 haddr hp]
      have hbad0 : ¬ s.rx s.pos = min 255 (b :: bs).length := by
        simp only [Nat.add_zero, List.length_cons] at hbad
        rw [chunkSizes_succ] at hbad
        simpa using hbad
      simp only [Serial.send, Serial.recv_one, List.headD_cons, take_min_255,
        drop_min_255, eq_self_iff_true, if_true]
      rw [if_neg hbad0]
      rw [chunksOf_cons]
      simp only [List.length_cons]
      rw [chunkSizes_succ]
      simp [Serial.afterWrite, specChunkDatagram, List.length_take]
      congr 1
      omega
  | succ k ihk =>
    intro data offset s lw hprev hk hbad
    match data with
    | [] => simp [chunkSizes] at hk
    | b :: bs =>
      have hmin1 : 1 ≤ min 255 (b :: bs).length := by simp
      have hmin2 : min 255 (b :: bs).length ≤ 255 := by omega
      have hshift : bs.length + 1 - min 255 (bs.length + 1) = bs.length + 1 - 255 := by
        omega
      rw [writeLoop,
        prepare_datagram_ok 1 addr _ (some p) pm pv (by omega) hmin1 hmin2 haddr hp]
      have hack0 : s.rx s.pos = min 255 (b :: bs).length := by
        have h0 := hprev 0 (by omega)
        simp only [Nat.add_zero, List.length_cons] at h0
        rw [chunkSizes_succ] at h0
        simpa using h0
      simp only [Serial.send, Serial.recv_one, List.headD_cons, take_min_255,
        drop_min_255, eq_self_iff_true, if_true]
      rw [if_pos hack0]
      have hrec := ihk ((b :: bs).drop 255) (offset + min 255 (b :: bs).length)
        (Serial.afterWrite s
          [specHeader 1 addr (some p) pm pv (min 255 (b :: bs).length) ++ (b :: bs).take 255] 1)
        lw ?hprev ?hk ?hbad
      case hprev =>
        intro i hi
        simp only [Serial.afterWrite, List.length_drop, List.length_cons]
        have hnext := hprev (i + 1) (by omega)
        simp only [List.length_cons] at hnext
        rw [chunkSizes_succ] at hnext
        simp only [List.getD_cons_succ] at hnext
        rw [hshift] at hnext
        rw [show s.pos + 1 + i = s.pos + (i + 1) from by omega]
        exact hnext
      case hk =>
        simp only [List.length_drop, List.length_cons]
        simp only [List.length_cons] at hk
        rw [chunkSizes_succ] at hk
        simp only [List.length_cons] at hk
        rw [hshift] at hk
        omega
      case hbad =>
        simp only [Serial.afterWrite, List.length_drop, List.length_cons]
        simp only [List.length_cons] at hbad
        rw [chunkSizes_succ] at hbad
        simp only [List.getD_cons_succ] at hbad
        rw [hshift] at hbad
        rw [show s.pos + 1 + k = s.pos + (k + 1) from by omega]
        exact hbad
      simp only [Serial.afterWrite, List.length_drop, List.length_cons] at hrec ⊢
      rw [hrec]
      rw [show s.pos + 1 + k = s.pos + (k + 1) from by omega]
      rw [chunksOf_cons]
      rw [chunkSizes_succ, hshift]
      simp only [List.take_succ_cons, List.map_cons, List.sum_cons]
      simp [Serial.afterWrite, specChunkDatagram, List.length_take,
        List.append_assoc]
      constructor
      · omega
      · constructor
        · congr 1
          omega
        · omega

lemma range_map_getLastD (f : Nat → Nat) (n : Nat) :
    ((List.range (n + 1)).map f).getLastD 0 = f n := by
  rw [List.range_succ]
  simp

lemma range_map_dropLast (f : Nat → Nat) (n : Nat) :
    ((List.range (n + 1)).map f).dropLast = (List.range n).map f := by
  rw [List.range_succ]
  simp

lemma range_map_take (f : Nat → Nat) (n a : Nat) (ha : a ≤ n) :
    ((List.range n).map f).take a = (List.range a).map f := by
  rw [← List.map_take, List.take_range, min_eq_left ha]

lemma readLoop_ok_aux (addr : Nat) (poll : Option Nat) (pm pv : Nat)
    (haddr : addr < 0x10000) (hpoll : pollOk poll) :
    ∀ (n size : Nat), size = n → ∀ (result : List Nat) (s : Serial),
      (∀ i, i < (chunkSizes size).length →
        s.rx (chunkStart s.pos (chunkSizes size) i + (chunkSizes size).getD i 0) =
          (chunkSizes size).getD i 0) →
      readLoop addr poll pm pv size result s =
        (.ok (result ++
           collectedData s.rx s.pos (chunkSizes size) (chunkSizes size).length),
         s.afterWrite ((chunkSizes size).map (specHeader 0 addr poll pm pv))
           (((chunkSizes size).map (fun c => c + 1)).sum)) := by
  intro n
  induction n using Nat.strong_induction_on with
  | _ n ih =>
    intro size hlen result s hack
    match size with
    | 0 => simp [readLoop, chunkSizes, collectedData, Serial.afterWrite]
    | m + 1 =>
      subst hlen
      have hmin1 : 1 ≤ min 255 (m + 1) := by omega
      have hmin2 : min 255 (m + 1) ≤ 255 := by omega
      rw [readLoop,
        prepare_datagram_ok 0 addr _ poll pm pv (by omega) hmin1 hmin2 haddr hpoll]
      have hack0 : s.rx (s.pos + min 255 (m + 1)) = min 255 (m + 1) := by
        have h0 := hack 0 ?_
        · rw [chunkSizes_succ] at h0
          simpa [chunkStart] using h0
        · rw [chunkSizes_succ]
          simp
      simp only [Serial.send, Serial.recv]
      rw [range_map_getLastD]
      rw [if_pos hack0]
      rw [range_map_dropLast]
      have hrec := ih (m + 1 - min 255 (m + 1)) (by omega) _ rfl
        (result ++ (List.range (min 255 (m + 1))).map (fun i => s.rx (s.pos + i)))
        (Serial.afterWrite s [specHeader 0 addr poll pm pv (min 255 (m + 1))]
          (min 255 (m + 1) + 1)) ?hyp
      case hyp =>
        intro i hi
        simp only [Serial.afterWrite]
        have hnext := hack (i + 1) ?_
        · rw [chunkSizes_succ] at hnext
          simp only [List.getD_cons_succ, chunkStart] at hnext
          rw [show s.pos + (min 255 (m + 1) + 1) = s.pos + min 255 (m + 1) + 1 from by
            omega]
          exact hnext
        · rw [chunkSizes_succ]
          simpa using hi
      simp only [Serial.afterWrite] at hrec
      rw [hrec]
      rw [chunkSizes_succ]
      simp only [List.map_cons, List.sum_cons, List.length_cons, collectedData,
        chunkStart]
      simp [Serial.afterWrite, List.append_assoc]
      omega

lemma readLoop_ok (addr : Nat) (poll : Option Nat) (pm pv : Nat)
    (haddr : addr < 0x10000) (hpoll : pollOk poll)
    (size : Nat) (result : List Nat) (s : Serial)
    (hack : ∀ i, i < (chunkSizes size).length →
      s.rx (chunkStart s.pos (chunkSizes size) i + (chunkSizes size).getD i 0) =
        (chunkSizes size).getD i 0) :
    readLoop addr poll pm pv size result s =
      (.ok (result ++
         collectedData s.rx s.pos (chunkSizes size) (chunkSizes size).length),
       s.afterWrite ((chunkSizes size).map (specHeader 0 addr poll pm pv))
         (((chunkSizes size).map (fun c => c + 1)).sum)) :=
  readLoop_ok_aux addr poll pm pv haddr hpoll size size rfl result s hack

lemma readLoop_timeout (addr p pm pv : Nat) (haddr : addr < 0x10000)
    (hp : p < 0x10000) :
    ∀ (k size : Nat) (result : List Nat) (s : Serial),
      (∀ i, i < k →
        s.rx (chunkStart s.pos (chunkSizes size) i + (chunkSizes size).getD i 0) =
          (chunkSizes size).getD i 0) →
      k < (chunkSizes size).length →
      s.rx (chunkStart s.pos (chunkSizes size) k + (chunkSizes size).getD k 0) <
        (chunkSizes size).getD k 0 →
      readLoop addr (some p) pm pv size result s =
        (.error (.timeoutRead (result ++ collectedData s.rx s.pos (chunkSizes size) k ++
           (List.range
             (s.rx (chunkStart s.pos (chunkSizes size) k + (chunkSizes size).getD k 0))).map
             (fun t => s.rx (chunkStart s.pos (chunkSizes size) k + t)))),
         s.afterWrite
           (((chunkSizes size).take (k + 1)).map (specHeader 0 addr (some p) pm pv))
           ((((chunkSizes size).take (k + 1)).map (fun c => c + 1)).sum)) := by
  intro k
  induction k with
  | zero =>
    intro size result s hprev hk hbad
    match size with
    | 0 => simp [chunkSizes] at hk
    | m + 1 =>
      have hmin1 : 1 ≤ min 255 (m + 1) := by omega
      have hmin2 : min 255 (m + 1) ≤ 255 := by omega
      rw [chunkSizes_succ] at hbad
      simp only [chunkStart, List.getD_cons_zero] at hbad
      rw [readLoop,
        prepare_datagram_ok 0 addr _ (some p) pm pv (by omega) hmin1 hmin2 haddr hp]
      simp only [Serial.send, Serial.recv]
      rw [range_map_getLastD]
      rw [if_neg (by omega)]
      rw [range_map_take _ _ _ (by omega)]
      rw [chunkSizes_succ]
      simp only [chunkStart, List.getD_cons_zero, List.take_succ_cons,
        List.take_zero, List.map_cons, List.map_nil, List.sum_cons, List.sum_nil,
        collectedData]
      simp [Serial.afterWrite]
  | succ k ihk =>
    intro size result s hprev hk hbad
    match size with
    | 0 => simp [chunkSizes] at hk
    | m + 1 =>
      have hmin1 : 1 ≤ min 255 (m + 1) := by omega
      have hmin2 : min 255 (m + 1) ≤ 255 := by omega
      rw [readLoop,
        prepare_datagram_ok 0 addr _ (some p) pm pv (by omega) hmin1 hmin2 haddr hp]
      have hack0 : s.rx (s.pos + min 255 (m + 1)) = min 255 (m + 1) := by
        have h0 := hprev 0 (by omega)
        rw [chunkSizes_succ] at h0
        simpa [chunkStart] using h0
      simp only [Serial.send, Serial.recv]
      rw [range_map_getLastD]
      rw [if_pos hack0]
      rw [range_map_dropLast]
      have hrec := ihk (m + 1 - min 255 (m + 1))
        (result ++ (List.range (min 255 (m + 1))).map (fun i => s.rx (s.pos + i)))
        (Serial.afterWrite s [specHeader 0 addr (some p) pm pv (min 255 (m + 1))]
          (min 255 (m + 1) + 1)) ?hprev ?hk ?hbad
      case hprev =>
        intro i hi
        simp only [Serial.afterWrite]
        have hnext := hprev (i + 1) (by omega)
        rw [chunkSizes_succ] at hnext
        simp only [List.getD_cons_succ, chunkStart] at hnext
        rw [show s.pos + (min 255 (m + 1) + 1) = s.pos + min 255 (m + 1) + 1 from by
          omega]
        exact hnext
      case hk =>
        rw [chunkSizes_succ] at hk
        simpa using hk
      case hbad =>
        simp only [Serial.afterWrite]
        rw [chunkSizes_succ] at hbad
        simp only [List.getD_cons_succ, chunkStart] at hbad
        rw [show s.pos + (min 255 (m + 1) + 1) = s.pos + min 255 (m + 1) + 1 from by
          omega]
        exact hbad
      simp only [Serial.afterWrite] at hrec
      rw [hrec]
      rw [chunkSizes_succ]
      simp only [chunkStart, List.getD_cons_succ, List.take_succ_cons,
        List.map_cons, List.sum_cons, collectedData]
      simp [Serial.afterWrite, List.append_assoc]
      omega

lemma ScaffoldBus.write_some (bus : ScaffoldBus) (s : Serial)
    (h : bus.ser = some s) (addr : Nat) (data : List Nat) (poll : Option Nat)
    (pm pv : Nat) :
    bus.write addr data poll pm pv =
      ((writeLoop addr poll pm pv bus.lazy_stack data 0 s bus.lazy_writes).1,
       { bus with
         ser := some (writeLoop addr poll pm pv bus.lazy_stack data 0 s bus.lazy_writes).2.1,
         lazy_writes :=
           (writeLoop addr poll pm pv bus.lazy_stack data 0 s bus.lazy_writes).2.2 }) := by
  unfold ScaffoldBus.write
  rw [h]

lemma ScaffoldBus.read_some (bus : ScaffoldBus) (s : Serial)
    (h : bus.ser = some s) (hd : bus.lazy_stack = 0) (addr size : Nat)
    (poll : Option Nat) (pm pv : Nat) :
    bus.read addr size poll pm pv =
      ((readLoop addr poll pm pv size [] s).1,
       { bus with ser := some (readLoop addr poll pm pv size [] s).2 }) := by
  unfold ScaffoldBus.read
  rw [h, hd]
  simp

lemma chunkSizes_bounds (n : Nat) : ∀ c ∈ chunkSizes n, 1 ≤ c ∧ c ≤ 255 := by
  rw [chunkSizes_eq]
  intro c hc
  rcases List.mem_append.1 hc with h | h
  · rw [List.eq_of_mem_replicate h]
    omega
  · by_cases hm : n % 255 = 0
    · simp [hm] at h
    · simp only [if_neg hm, List.mem_singleton] at h
      subst h
      have := Nat.mod_lt n (by omega : 0 < 255)
      omega

/-- C2: for every payload and address, `BusEngine.write` splits the payload
into consecutive chunks of at most 255 bytes (a 600-byte payload yields
chunk sizes [255, 255, 90], and every chunk datagram carries the same
unchanged address); each chunk is sent as one datagram made of the command
byte `rw | multi-chunk | poll-flag`, the 16-bit register address big-endian,
the poll address / mask / expected value exactly when a poll spec is
present, an explicit size byte exactly when the chunk size exceeds 1, and
the chunk's payload bytes.  Stated for both acknowledgment modes: inside a
lazy section all chunks are sent and queued; at depth 0 with matching
acknowledgments all chunks are sent and acknowledged. -/
theorem c2_write_chunking_and_datagram_layout
    (bus : ScaffoldBus) (s : Serial) (addr : Nat) (data : List Nat)
    (poll : Option Nat) (pm pv : Nat)
    (hser : bus.ser = some s) (haddr : addr < 0x10000) (hpoll : pollOk poll) :
    ((chunksOf data).map List.length = chunkSizes data.length
      ∧ (chunksOf data).flatten = data
      ∧ (∀ c ∈ chunksOf data, 1 ≤ c.length ∧ c.length ≤ 255)
      ∧ chunkSizes 600 = [255, 255, 90])
    ∧ (bus.lazy_stack ≠ 0 →
        bus.write addr data poll pm pv =
          (.ok (), { bus with
            ser := some (s.afterWrite
              ((chunksOf data).map (specChunkDatagram addr poll pm pv)) 0),
            lazy_writes := bus.lazy_writes ++ chunkSizes data.length }))
    ∧ (bus.lazy_stack = 0 →
        (∀ i, i < (chunkSizes data.length).length →
          s.rx (s.pos + i) = (chunkSizes data.length).getD i 0) →
        bus.write addr data poll pm pv =
          (.ok (), { bus with
            ser := some (s.afterWrite
              ((chunksOf data).map (specChunkDatagram addr poll pm pv))
              (chunkSizes data.length).length) })) := by
  refine ⟨⟨chunkSizes_map_length data, chunksOf_flatten data, ?_, by
    rw [chunkSizes_eq]; decide⟩, ?_, ?_⟩
  · intro c hc
    have hmem : c.length ∈ chunkSizes data.length := by
      rw [← chunkSizes_map_length data]
      exact List.mem_map_of_mem _ hc
    exact chunkSizes_bounds _ _ hmem
  · intro hd
    rw [ScaffoldBus.write_some bus s hser,
      writeLoop_lazy addr poll pm pv bus.lazy_stack hd haddr hpoll data 0 s
        bus.lazy_writes]
    simp [Serial.afterWrite]
  · intro hd hack
    rw [ScaffoldBus.write_some bus s hser, hd,
      writeLoop_ok addr poll pm pv haddr hpoll data 0 s bus.lazy_writes hack]

theorem c2_witness :
    ((chunksOf [9, 9]).map List.length = chunkSizes ([9, 9] : List Nat).length
      ∧ (chunksOf [9, 9]).flatten = [9, 9]
      ∧ (∀ c ∈ chunksOf [9, 9], 1 ≤ c.length ∧ c.length ≤ 255)
      ∧ chunkSizes 600 = [255, 255, 90])
    ∧ ((fixBus 2 0).lazy_stack ≠ 0 →
        (fixBus 2 0).write 0x200 [9, 9] none 255 0 =
          (.ok (), { fixBus 2 0 with
            ser := some ((fixSerial 2).afterWrite
              ((chunksOf [9, 9]).map (specChunkDatagram 0x200 none 255 0)) 0),
            lazy_writes := (fixBus 2 0).lazy_writes ++ chunkSizes ([9, 9] : List Nat).length }))
    ∧ ((fixBus 2 0).lazy_stack = 0 →
        (∀ i, i < (chunkSizes ([9, 9] : List Nat).length).length →
          (fixSerial 2).rx ((fixSerial 2).pos + i) =
            (chunkSizes ([9, 9] : List Nat).length).getD i 0) →
        (fixBus 2 0).write 0x200 [9, 9] none 255 0 =
          (.ok (), { fixBus 2 0 with
            ser := some ((fixSerial 2).afterWrite
              ((chunksOf [9, 9]).map (specChunkDatagram 0x200 none 255 0))
              (chunkSizes ([9, 9] : List Nat).length).length) })) :=
  c2_write_chunking_and_datagram_layout (fixBus 2 0) (fixSerial 2) 0x200 [9, 9]
    none 255 0 rfl (by decide) trivial

/-- C8 (amended): on a connected engine, every call to `ScaffoldBus.read`
made while the batching depth is positive fails with the UsageError
`RuntimeError('Read operations not allowed during lazy-update section.')`
and performs no transport I/O: the whole bus state, sent log and receive
cursor included, is returned unchanged.  On a never-connected engine the
`self.ser is None` check fires first and the call fails with NotConnected
instead (see the counterexample). -/
theorem c8_read_in_lazy_section_usage_error
    (bus : ScaffoldBus) (s : Serial) (addr size : Nat) (poll : Option Nat)
    (pm pv : Nat) (hser : bus.ser = some s) (hd : 0 < bus.lazy_stack) :
    bus.read addr size poll pm pv =
      (.error (.runtimeError
        "Read operations not allowed during lazy-update section."), bus) := by
  unfold ScaffoldBus.read
  rw [hser]
  simp [hd]

theorem c8_witness :
    (fixBus 0 1).read 5 1 none 255 0 =
      (.error (.runtimeError
        "Read operations not allowed during lazy-update section."), fixBus 0 1) :=
  c8_read_in_lazy_section_usage_error (fixBus 0 1) (fixSerial 0) 5 1 none 255 0
    rfl (by decide)

/-- C8 counterexample: the claim quantifies over every call at depth > 0,
but on a bus that was never connected (reachable: `lazy_start` does not
require a connection) the call fails with the NotConnected RuntimeError,
not with the UsageError, so "fails with UsageError" does not hold as
stated. -/
theorem c8_counterexample :
    (fixBusNone 1).lazy_stack = 1
    ∧ ((fixBusNone 1).read 5 1 none 255 0).1 =
        .error (.runtimeError "Not connected to board")
    ∧ ((fixBusNone 1).read 5 1 none 255 0).1 ≠
        .error (.runtimeError
          "Read operations not allowed during lazy-update section.")
    ∧ ((fixBusNone 1).read 5 1 none 255 0).2 = fixBusNone 1 :=
  ⟨rfl, by decide, by decide, rfl⟩

lemma chunkSizes_one : chunkSizes 1 = [1] := by
  rw [chunkSizes_eq]; decide

lemma chunksOf_singleton (x : Nat) : chunksOf [x] = [[x]] := by
  rw [chunksOf_cons]; simp [chunksOf]

/-- Single-byte register write on a connected bus at depth 0 whose next
acknowledgment byte is 1: exactly one write datagram goes out and one
acknowledgment byte is consumed. -/
lemma ScaffoldBus.write_one_byte (bus : ScaffoldBus) (s : Serial)
    (hser : bus.ser = some s) (hd : bus.lazy_stack = 0) (addr v : Nat)
    (haddr : addr < 0x10000) (hack : s.rx s.pos = 1) :
    bus.write addr [v] none 255 0 =
      (.ok (), { bus with ser := some (s.afterWrite
        [specChunkDatagram addr none 255 0 [v]] 1) }) := by
  rw [ScaffoldBus.write_some bus s hser, hd]
  rw [writeLoop_ok addr none 255 0 haddr trivial [v] 0 s bus.lazy_writes ?_]
  · simp [chunksOf_singleton, chunkSizes_one]
  · intro i hi
    simp only [List.length_singleton] at hi ⊢
    rw [chunkSizes_one] at hi ⊢
    simp only [List.length_singleton] at hi
    interval_cases i
    simpa using hack

/-- C7 (amended): `sig_connect` resolves the destination against the
right-matrix output table first and, when found, issues exactly one
register write (a single write datagram, no read-modify-write) of the
right-matrix input index of the source to `ADDR_MTXR_BASE +
destination index`; otherwise it resolves the destination against the
left-matrix output table analogously with `ADDR_MTXL_BASE`; a destination
matching neither output table fails before touching the transport — but
with `RuntimeError('Invalid destination path ...')`, the code's internal
shall-never-happen guard, not with InvalidArgument; a source absent from
the applicable input table fails with InvalidArgument (`ValueError` from
`list.index`) and no transport I/O. -/
theorem c7_sig_connect_resolution
    (bus : ScaffoldBus) (s : Serial) (dst src : String)
    (hser : bus.ser = some s) (hd : bus.lazy_stack = 0)
    (hack : s.rx s.pos = 1) :
    (dst ∈ mtxr_out → src ∈ mtxr_in →
      sig_connect bus dst src =
        (.ok (), { bus with ser := some (s.afterWrite
          [specChunkDatagram (ADDR_MTXR_BASE + mtxr_out.indexOf dst) none 255 0
            [mtxr_in.indexOf src]] 1) }))
    ∧ (dst ∉ mtxr_out → dst ∈ mtxl_out → src ∈ mtxl_in →
      sig_connect bus dst src =
        (.ok (), { bus with ser := some (s.afterWrite
          [specChunkDatagram (ADDR_MTXL_BASE + mtxl_out.indexOf dst) none 255 0
            [mtxl_in.indexOf src]] 1) }))
    ∧ (dst ∉ mtxr_out → dst ∉ mtxl_out →
      sig_connect bus dst src =
        (.error (.runtimeError ("Invalid destination path " ++ dst)), bus))
    ∧ (dst ∈ mtxr_out → src ∉ mtxr_in →
      sig_connect bus dst src = (.error (.valueError "is not in list"), bus))
    ∧ (dst ∉ mtxr_out → dst ∈ mtxl_out → src ∉ mtxl_in →
      sig_connect bus dst src = (.error (.valueError "is not in list"), bus)) := by
  refine ⟨?_, ?_, ?_, ?_, ?_⟩
  · intro hdst hsrc
    have haddr : ADDR_MTXR_BASE + mtxr_out.indexOf dst < 0x10000 := by
      have h1 : mtxr_out.indexOf dst < mtxr_out.length :=
        List.indexOf_lt_length.2 hdst
      have h2 : mtxr_out.length = 22 := by decide
      unfold ADDR_MTXR_BASE
      omega
    unfold sig_connect
    rw [if_pos hdst, if_pos hsrc,
      ScaffoldBus.write_one_byte bus s hser hd _ _ haddr hack]
  · intro hned hdst hsrc
    have haddr : ADDR_MTXL_BASE + mtxl_out.indexOf dst < 0x10000 := by
      have h1 : mtxl_out.indexOf dst < mtxl_out.length :=
        List.indexOf_lt_length.2 hdst
      have h2 : mtxl_out.length = 9 := by decide
      unfold ADDR_MTXL_BASE
      omega
    unfold sig_connect
    rw [if_neg hned, if_pos hdst, if_pos hsrc,
      ScaffoldBus.write_one_byte bus s hser hd _ _ haddr hack]
  · intro h1 h2
    unfold sig_connect
    rw [if_neg h1, if_neg h2]
  · intro hdst hsrc
    unfold sig_connect
    rw [if_pos hdst, if_neg hsrc]
  · intro hned hdst hsrc
    unfold sig_connect
    rw [if_neg hned, if_pos hdst, if_neg hsrc]

theorem c7_witness :
    ("/io/a0" ∈ mtxr_out → "/uart0/tx" ∈ mtxr_in →
      sig_connect (fixBus 1 0) "/io/a0" "/uart0/tx" =
        (.ok (), { fixBus 1 0 with ser := some ((fixSerial 1).afterWrite
          [specChunkDatagram (ADDR_MTXR_BASE + mtxr_out.indexOf "/io/a0") none 255 0
            [mtxr_in.indexOf "/uart0/tx"]] 1) }))
    ∧ ("/io/a0" ∉ mtxr_out → "/io/a0" ∈ mtxl_out → "/uart0/tx" ∈ mtxl_in →
      sig_connect (fixBus 1 0) "/io/a0" "/uart0/tx" =
        (.ok (), { fixBus 1 0 with ser := some ((fixSerial 1).afterWrite
          [specChunkDatagram (ADDR_MTXL_BASE + mtxl_out.indexOf "/io/a0") none 255 0
            [mtxl_in.indexOf "/uart0/tx"]] 1) }))
    ∧ ("/io/a0" ∉ mtxr_out → "/io/a0" ∉ mtxl_out →
      sig_connect (fixBus 1 0) "/io/a0" "/uart0/tx" =
        (.error (.runtimeError ("Invalid destination path " ++ "/io/a0")), fixBus 1 0))
    ∧ ("/io/a0" ∈ mtxr_out → "/uart0/tx" ∉ mtxr_in →
      sig_connect (fixBus 1 0) "/io/a0" "/uart0/tx" =
        (.error (.valueError "is not in list"), fixBus 1 0))
    ∧ ("/io/a0" ∉ mtxr_out → "/io/a0" ∈ mtxl_out → "/uart0/tx" ∉ mtxl_in →
      sig_connect (fixBus 1 0) "/io/a0" "/uart0/tx" =
        (.error (.valueError "is not in list"), fixBus 1 0)) :=
  c7_sig_connect_resolution (fixBus 1 0) (fixSerial 1) "/io/a0" "/uart0/tx"
    rfl rfl rfl

/-- C7 counterexample: an unknown destination fails with `RuntimeError`
("Invalid destination path ..."), not with the InvalidArgument bucket
(`ValueError`), though it does fail before touching the transport. -/
theorem c7_counterexample :
    "/bogus" ∉ mtxr_out ∧ "/bogus" ∉ mtxl_out
    ∧ (sig_connect (fixBus 1 0) "/bogus" "0").1 =
        .error (.runtimeError "Invalid destination path /bogus")
    ∧ isInvalidArgument (.runtimeError "Invalid destination path /bogus") = false
    ∧ (sig_connect (fixBus 1 0) "/bogus" "0").2 = fixBus 1 0 := by
  refine ⟨by decide, by decide, by decide, by decide, rfl⟩

lemma toBytesBE_length (n v : Nat) : (toBytesBE n v).length = n := by
  induction n generalizing v with
  | zero => rfl
  | succ m ih => simp [toBytesBE, ih]

lemma chunkSizes_small (n : Nat) (h1 : 1 ≤ n) (h2 : n ≤ 255) :
    chunkSizes n = [n] := by
  rw [chunkSizes_eq]
  rcases Nat.lt_or_ge n 255 with h | h
  · rw [Nat.div_eq_of_lt h, Nat.mod_eq_of_lt h]
    simp
    omega
  · rw [show n = 255 from by omega]
    decide

lemma chunksOf_small (data : List Nat) (h1 : data ≠ []) (h2 : data.length ≤ 255) :
    chunksOf data = [data] := by
  match data with
  | [] => exact absurd rfl h1
  | b :: bs =>
    rw [chunksOf_cons, List.take_of_length_le h2, List.drop_eq_nil_of_le h2]
    simp [chunksOf]

/-- Single-chunk write (payload of 1..255 bytes) on a connected bus at
depth 0 whose next acknowledgment byte equals the payload length. -/
lemma ScaffoldBus.write_single_chunk (bus : ScaffoldBus) (s : Serial)
    (hser : bus.ser = some s) (hd : bus.lazy_stack = 0) (addr : Nat)
    (data : List Nat) (h1 : data ≠ []) (h2 : data.length ≤ 255)
    (haddr : addr < 0x10000) (poll : Option Nat) (pm pv : Nat)
    (hpoll : pollOk poll) (hack : s.rx s.pos = data.length) :
    bus.write addr data poll pm pv =
      (.ok (), { bus with ser := some (s.afterWrite
        [specChunkDatagram addr poll pm pv data] 1) }) := by
  have hlen1 : 1 ≤ data.length := by
    cases data
    · exact absurd rfl h1
    · simp
  rw [ScaffoldBus.write_some bus s hser, hd,
    writeLoop_ok addr poll pm pv haddr hpoll data 0 s bus.lazy_writes ?_]
  · rw [chunksOf_small data h1 h2, chunkSizes_small data.length hlen1 h2]
    simp
  · intro i hi
    rw [chunkSizes_small data.length hlen1 h2] at hi ⊢
    simp only [List.length_singleton] at hi
    interval_cases i
    simpa using hack

/-- Single-byte register read on a connected bus at depth 0 whose
acknowledgment byte (the second byte of the response) is 1. -/
lemma ScaffoldBus.read_one_byte (bus : ScaffoldBus) (s : Serial)
    (hser : bus.ser = some s) (hd : bus.lazy_stack = 0) (addr : Nat)
    (haddr : addr < 0x10000) (hack : s.rx (s.pos + 1) = 1) :
    bus.read addr 1 none 255 0 =
      (.ok [s.rx s.pos],
       { bus with ser := some (s.afterWrite
         [specHeader 0 addr none 255 0 1] 2) }) := by
  rw [ScaffoldBus.read_some bus s hser hd,
    readLoop_ok addr none 255 0 haddr trivial 1 [] s ?_]
  · rw [chunkSizes_one]
    simp [collectedData, chunkStart, List.range_succ]
  · intro i hi
    rw [chunkSizes_one] at hi ⊢
    simp only [List.length_singleton] at hi
    interval_cases i
    simpa [chunkStart] using hack

/-- C4 (amended): `Register.set` checks bounds FIRST: any value outside
[min, max] fails with InvalidArgument (`ValueError`), even on a
non-Writable register, with no bus I/O; an in-range value on a
non-Writable register fails with CapabilityError
(`RuntimeError('Register cannot be written')`), again with no bus I/O; on
success the value is serialized to exactly `wideness` big-endian bytes,
written to the register's address in one datagram through
`BusEngine.write`, and the integer value is cached with no device
read-back (the only transport activity is the single write datagram and
its acknowledgment byte). -/
theorem c4_register_set_bounds_capability
    (reg : Register) (bus : ScaffoldBus) (s : Serial) (v : Nat)
    (poll : Option Nat) (pm pv : Nat) :
    (v < reg.min_value →
      reg.set bus v poll pm pv =
        (.error (.valueError "Value too low"), reg, bus))
    ∧ (reg.min_value ≤ v → reg.max_value < v →
      reg.set bus v poll pm pv =
        (.error (.valueError "Value too high"), reg, bus))
    ∧ (reg.min_value ≤ v → v ≤ reg.max_value → reg.w = false →
      reg.set bus v poll pm pv =
        (.error (.runtimeError "Register cannot be written"), reg, bus))
    ∧ ((toBytesBE reg.wideness v).length = reg.wideness)
    ∧ (reg.min_value ≤ v → v ≤ reg.max_value → reg.w = true → reg.WF →
      reg.wideness ≤ 255 → pollOk poll → bus.ser = some s →
      bus.lazy_stack = 0 → s.rx s.pos = reg.wideness →
      reg.set bus v poll pm pv =
        (.ok (), { reg with cache := some v },
         { bus with ser := some (s.afterWrite
           [specChunkDatagram reg.address poll pm pv (toBytesBE reg.wideness v)] 1) })) := by
  refine ⟨?_, ?_, ?_, toBytesBE_length reg.wideness v, ?_⟩
  · intro h
    unfold Register.set
    rw [if_pos h]
  · intro h1 h2
    unfold Register.set
    rw [if_neg (by omega), if_pos h2]
  · intro h1 h2 hw
    unfold Register.set
    rw [if_neg (by omega), if_neg (by omega), if_pos hw]
  · intro h1 h2 hw hwf hwid hpoll hser hd hack
    obtain ⟨haddr, hw1, -, -, hmax, -⟩ := hwf
    unfold Register.set
    rw [if_neg (by omega), if_neg (by omega), if_neg (by rw [hw]; simp),
      if_neg (by omega)]
    rw [ScaffoldBus.write_single_chunk bus s hser hd reg.address
      (toBytesBE reg.wideness v)
      (by intro hnil; have := toBytesBE_length reg.wideness v; rw [hnil] at this; simp at this; omega)
      (by rw [toBytesBE_length]; omega) haddr poll pm pv hpoll
      (by rw [toBytesBE_length]; exact hack)]

theorem c4_witness :
    ((0x1234 : Nat) < regW2.min_value →
      regW2.set (fixBus 2 0) 0x1234 none 255 0 =
        (.error (.valueError "Value too low"), regW2, fixBus 2 0))
    ∧ (regW2.min_value ≤ 0x1234 → regW2.max_value < 0x1234 →
      regW2.set (fixBus 2 0) 0x1234 none 255 0 =
        (.error (.valueError "Value too high"), regW2, fixBus 2 0))
    ∧ (regW2.min_value ≤ 0x1234 → 0x1234 ≤ regW2.max_value → regW2.w = false →
      regW2.set (fixBus 2 0) 0x1234 none 255 0 =
        (.error (.runtimeError "Register cannot be written"), regW2, fixBus 2 0))
    ∧ ((toBytesBE regW2.wideness 0x1234).length = regW2.wideness)
    ∧ (regW2.min_value ≤ 0x1234 → 0x1234 ≤ regW2.max_value → regW2.w = true →
      regW2.WF → regW2.wideness ≤ 255 → pollOk none →
      (fixBus 2 0).ser = some (fixSerial 2) → (fixBus 2 0).lazy_stack = 0 →
      (fixSerial 2).rx ((fixSerial 2).pos) = regW2.wideness →
      regW2.set (fixBus 2 0) 0x1234 none 255 0 =
        (.ok (), { regW2 with cache := some 0x1234 },
         { fixBus 2 0 with ser := some ((fixSerial 2).afterWrite
           [specChunkDatagram regW2.address none 255 0
             (toBytesBE regW2.wideness 0x1234)] 1) })) :=
  c4_register_set_bounds_capability regW2 (fixBus 2 0) (fixSerial 2) 0x1234
    none 255 0

/-- C4 counterexample: on a non-Writable register with an out-of-range
value, `Register.set` fails with the InvalidArgument `ValueError` (bounds
are checked first), not with the CapabilityError the claim requires for
every non-Writable register; no state changes. -/
theorem c4_counterexample :
    regNoRW.w = false
    ∧ (regNoRW.set (fixBus 1 0) 11 none 255 0).1 =
        .error (.valueError "Value too high")
    ∧ (regNoRW.set (fixBus 1 0) 11 none 255 0).1 ≠
        .error (.runtimeError "Register cannot be written")
    ∧ (regNoRW.set (fixBus 1 0) 11 none 255 0).2.1 = regNoRW
    ∧ (regNoRW.set (fixBus 1 0) 11 none 255 0).2.2 = fixBus 1 0 :=
  ⟨rfl, by decide, by decide, rfl, rfl⟩

/-- C5: `Register.get` on a Volatile register fails with CapabilityError
when not Readable, and otherwise always issues one fresh 1-byte
`BusEngine.read` (exactly one read datagram sent, payload byte plus
acknowledgment byte consumed) without touching the cache — even when a
cache value is present.  On a non-Volatile register it returns the cached
value with zero I/O when the cache is populated; otherwise, when Readable,
it issues the read, populates the cache with the byte read and returns it;
otherwise it fails with CapabilityError. -/
theorem c5_register_get_cache_policy
    (reg : Register) (bus : ScaffoldBus) (s : Serial) :
    (reg.volatile = true → reg.r = false →
      reg.get bus = (.error (.runtimeError "Register cannot be read"), reg, bus))
    ∧ (reg.volatile = true → reg.r = true → bus.ser = some s →
        bus.lazy_stack = 0 → reg.address < 0x10000 → s.rx (s.pos + 1) = 1 →
      reg.get bus =
        (.ok (s.rx s.pos), reg,
         { bus with ser := some (s.afterWrite
           [specHeader 0 reg.address none 255 0 1] 2) }))
    ∧ (reg.volatile = false → ∀ v, reg.cache = some v →
      reg.get bus = (.ok v, reg, bus))
    ∧ (reg.volatile = false → reg.cache = none → reg.r = true →
        bus.ser = some s → bus.lazy_stack = 0 → reg.address < 0x10000 →
        s.rx (s.pos + 1) = 1 →
      reg.get bus =
        (.ok (s.rx s.pos), { reg with cache := some (s.rx s.pos) },
         { bus with ser := some (s.afterWrite
           [specHeader 0 reg.address none 255 0 1] 2) }))
    ∧ (reg.volatile = false → reg.cache = none → reg.r = false →
      reg.get bus = (.error (.runtimeError "Register cannot be read"), reg, bus)) := by
  refine ⟨?_, ?_, ?_, ?_, ?_⟩
  · intro hv hr
    unfold Register.get
    rw [if_pos hv, if_pos hr]
  · intro hv hr hser hd haddr hack
    unfold Register.get
    rw [if_pos hv, if_neg (by rw [hr]; simp),
      ScaffoldBus.read_one_byte bus s hser hd reg.address haddr hack]
  · intro hv v hc
    unfold Register.get
    rw [if_neg (by rw [hv]; simp), hc]
  · intro hv hc hr hser hd haddr hack
    unfold Register.get
    rw [if_neg (by rw [hv]; simp), hc, hr,
      ScaffoldBus.read_one_byte bus s hser hd reg.address haddr hack]
    simp
  · intro hv hc hr
    unfold Register.get
    rw [if_neg (by rw [hv]; simp), hc, hr]
    simp

theorem c5_witness :
    regRV.get (fixBus2 0x2a 1) =
      (.ok 0x2a, regRV,
       { fixBus2 0x2a 1 with ser := some ((fixSerial2 0x2a 1).afterWrite
         [specHeader 0 regRV.address none 255 0 1] 2) })
    ∧ regRC.get (fixBus 0 0) = (.ok 7, regRC, fixBus 0 0)
    ∧ regR.get (fixBus2 0x2a 1) =
      (.ok 0x2a, { regR with cache := some 0x2a },
       { fixBus2 0x2a 1 with ser := some ((fixSerial2 0x2a 1).afterWrite
         [specHeader 0 regR.address none 255 0 1] 2) }) :=
  ⟨(c5_register_get_cache_policy regRV (fixBus2 0x2a 1)
      (fixSerial2 0x2a 1)).2.1 rfl rfl rfl rfl (by decide) rfl,
   (c5_register_get_cache_policy regRC (fixBus 0 0) (fixSerial 0)).2.2.1
      rfl 7 rfl,
   (c5_register_get_cache_policy regR (fixBus2 0x2a 1)
      (fixSerial2 0x2a 1)).2.2.2.1 rfl rfl rfl rfl rfl (by decide) rfl⟩

lemma Register.set_cache_of_ok (reg : Register) (bus : ScaffoldBus) (v : Nat)
    (poll : Option Nat) (pm pv : Nat)
    (h : (reg.set bus v poll pm pv).1 = .ok ()) :
    (reg.set bus v poll pm pv).2.1 = { reg with cache := some v } := by
  unfold Register.set at h ⊢
  split_ifs at h ⊢ <;> try simp at h
  rcases hw : (bus.write reg.address (toBytesBE reg.wideness v) poll pm pv).1
    with e | u
  · simp only [hw] at h
    simp at h
  · simp only [hw]

lemma Register.set_cache_of_err (reg : Register) (bus : ScaffoldBus) (v : Nat)
    (poll : Option Nat) (pm pv : Nat)
    (h : (reg.set bus v poll pm pv).1 ≠ .ok ()) :
    (reg.set bus v poll pm pv).2.1 = reg := by
  unfold Register.set at h ⊢
  split_ifs at h ⊢ <;> try rfl
  rcases hw : (bus.write reg.address (toBytesBE reg.wideness v) poll pm pv).1
    with e | u
  · simp only [hw]
  · simp only [hw] at h
    simp at h

lemma Register.get_volatile_reg (reg : Register) (bus : ScaffoldBus)
    (h : reg.volatile = true) : (reg.get bus).2.1 = reg := by
  unfold Register.get
  rw [if_pos h]
  split_ifs
  · rfl
  · rcases hr : (bus.read reg.address 1 none 0xff 0x00).1 with e | l
    · simp only [hr]
    · rcases l with - | ⟨b, rest⟩ <;> simp only [hr]

lemma Register.get_reg_of_err (reg : Register) (bus : ScaffoldBus) :
    ∀ e, (reg.get bus).1 = .error e → (reg.get bus).2.1 = reg := by
  intro e he
  by_cases hv : reg.volatile = true
  · exact Register.get_volatile_reg reg bus hv
  · rcases hc : reg.cache with - | v
    · by_cases hr : reg.r = true
      · rcases hread : (bus.read reg.address 1 none 0xff 0x00).1 with e2 | l
        · simp [Register.get, hv, hc, hr, hread]
        · rcases l with - | ⟨b, rest⟩
          · simp [Register.get, hv, hc, hr, hread]
          · simp [Register.get, hv, hc, hr, hread] at he
      · simp [Register.get, hv, hc, hr]
    · simp [Register.get, hv, hc] at he

lemma Register.get_cache_cases (reg : Register) (bus : ScaffoldBus) :
    (reg.get bus).2.1.cache = reg.cache
    ∨ (reg.cache = none ∧ reg.r = true ∧ reg.volatile = false ∧
        ∃ b, (reg.get bus).1 = .ok b ∧
          (reg.get bus).2.1 = { reg with cache := some b }) := by
  by_cases hv : reg.volatile = true
  · left
    rw [Register.get_volatile_reg reg bus hv]
  · rcases hc : reg.cache with - | v
    · by_cases hr : reg.r = true
      · rcases hread : (bus.read reg.address 1 none 0xff 0x00).1 with e | l
        · left
          simp [Register.get, hv, hc, hr, hread]
        · rcases l with - | ⟨b, rest⟩
          · left
            simp [Register.get, hv, hc, hr, hread]
          · right
            refine ⟨rfl, hr, by simpa using hv, b, ?_, ?_⟩ <;>
              simp [Register.get, hv, hc, hr, hread]
      · left
        simp [Register.get, hv, hc, hr]
    · left
      simp [Register.get, hv, hc]

lemma cacheFrom_error_case (reg : Register) (bus : ScaffoldBus) (e : PyError)
    (hg : (reg.get bus).1 = .error e) :
    cacheFrom reg bus (.error e, (reg.get bus).2) := by
  left
  show ((reg.get bus).2.1).cache = reg.cache
  rw [Register.get_reg_of_err reg bus e hg]

lemma cacheFrom_set_case (reg : Register) (bus : ScaffoldBus) (b1 : ScaffoldBus)
    (u : Nat) (poll : Option Nat) (pm pv : Nat) :
    cacheFrom reg bus (((reg.get bus).2.1).set b1 u poll pm pv) := by
  by_cases hs : (((reg.get bus).2.1).set b1 u poll pm pv).1 = .ok ()
  · right; right
    exact ⟨hs, u, by rw [Register.set_cache_of_ok _ _ _ _ _ _ hs]⟩
  · have hkeep := Register.set_cache_of_err _ _ _ _ _ _ hs
    rcases Register.get_cache_cases reg bus with h | ⟨-, -, -, b, hb, hreg⟩
    · left
      show (((reg.get bus).2.1).set b1 u poll pm pv).2.1.cache = reg.cache
      rw [hkeep]
      exact h
    · right; left
      exact ⟨b, hb, by rw [hkeep, hreg]⟩

/-- C6 (amended): the cache is never populated speculatively.  A
`Register.set` call updates the cache exactly when it returns success
(after its bus write was issued and, at depth 0, acknowledged) and then
holds exactly the value written; any failing `set` leaves the cache
untouched.  A `Register.get` on a Volatile register never touches the
register state at all; on a non-Volatile register the cache changes only
when it was empty, the register is Readable, and the bus read succeeded,
and then holds exactly the byte read; a failing `get` changes nothing.
`get_bit` delegates to `get` without further state changes, and the
read-modify-write helpers `or_set` / `set_bit` / `set_mask` end with a
cache that is the original one, a byte confirmed by their inner `get`, or
the value cached by their final successful `set`.  (Contrary to the
original claim, a successful `set` populates the cache even for a Volatile
register — see the counterexample — though `get` never consults it.) -/
theorem c6_cache_confirmed_invariant
    (reg : Register) (bus : ScaffoldBus) (v mask idx : Nat) (bit : Bool)
    (poll : Option Nat) (pm pv : Nat) :
    ((reg.set bus v poll pm pv).1 = .ok () →
      (reg.set bus v poll pm pv).2.1 = { reg with cache := some v })
    ∧ ((reg.set bus v poll pm pv).1 ≠ .ok () →
      (reg.set bus v poll pm pv).2.1 = reg)
    ∧ (reg.volatile = true → (reg.get bus).2.1 = reg)
    ∧ ((reg.get bus).2.1.cache = reg.cache
       ∨ (reg.cache = none ∧ reg.r = true ∧ reg.volatile = false ∧
           ∃ b, (reg.get bus).1 = .ok b ∧
             (reg.get bus).2.1 = { reg with cache := some b }))
    ∧ (∀ e, (reg.get bus).1 = .error e → (reg.get bus).2.1 = reg)
    ∧ ((reg.get_bit bus idx).2 = (reg.get bus).2)
    ∧ cacheFrom reg bus (reg.or_set bus v)
    ∧ cacheFrom reg bus (reg.set_bit bus idx bit poll pm pv)
    ∧ cacheFrom reg bus (reg.set_mask bus v mask poll pm pv) := by
  refine ⟨Register.set_cache_of_ok reg bus v poll pm pv,
    Register.set_cache_of_err reg bus v poll pm pv,
    Register.get_volatile_reg reg bus,
    Register.get_cache_cases reg bus,
    Register.get_reg_of_err reg bus, ?_, ?_, ?_, ?_⟩
  · unfold Register.get_bit
    rcases hg : (reg.get bus).1 with e | cur <;> simp [hg]
  · rcases hg : (reg.get bus).1 with e | cur
    · have heq : reg.or_set bus v = (.error e, (reg.get bus).2) := by
        unfold Register.or_set
        simp only [hg]
      rw [heq]
      exact cacheFrom_error_case reg bus e hg
    · have heq : reg.or_set bus v =
          ((reg.get bus).2.1).set ((reg.get bus).2.2) (cur ||| v) none 0xff 0x00 := by
        unfold Register.or_set
        simp only [hg]
      rw [heq]
      exact cacheFrom_set_case reg bus _ _ none 0xff 0x00
  · rcases hg : (reg.get bus).1 with e | cur
    · have heq : reg.set_bit bus idx bit poll pm pv = (.error e, (reg.get bus).2) := by
        unfold Register.set_bit
        simp only [hg]
      rw [heq]
      exact cacheFrom_error_case reg bus e hg
    · have heq : reg.set_bit bus idx bit poll pm pv =
          ((reg.get bus).2.1).set ((reg.get bus).2.2)
            (pyAndNot cur (1 <<< idx) ||| ((if bit then 1 else 0) <<< idx))
            poll pm pv := by
        unfold Register.set_bit
        simp only [hg]
      rw [heq]
      exact cacheFrom_set_case reg bus _ _ poll pm pv
  · rcases hg : (reg.get bus).1 with e | cur
    · have heq : reg.set_mask bus v mask poll pm pv = (.error e, (reg.get bus).2) := by
        unfold Register.set_mask
        simp only [hg]
      rw [heq]
      exact cacheFrom_error_case reg bus e hg
    · have heq : reg.set_mask bus v mask poll pm pv =
          ((reg.get bus).2.1).set ((reg.get bus).2.2)
            (pyAndNot cur mask ||| (v &&& mask)) poll pm pv := by
        unfold Register.set_mask
        simp only [hg]
      rw [heq]
      exact cacheFrom_set_case reg bus _ _ poll pm pv

theorem c6_witness :
    (regWV.get (fixBus 1 0)).2.1 = regWV
    ∧ cacheFrom regR (fixBus2 0x2a 1) (regR.or_set (fixBus2 0x2a 1) 1) :=
  ⟨(c6_cache_confirmed_invariant regWV (fixBus 1 0) 5 3 0 true none 255 0).2.2.1
     rfl,
   (c6_cache_confirmed_invariant regR (fixBus2 0x2a 1) 1 3 0 true none 255
     0).2.2.2.2.2.2.1⟩

/-- C6 counterexample: `Register.set` caches unconditionally after a
successful bus write, even for a Volatile register — the claimed invariant
"the cache is never populated for a Volatile register" fails after
`set(5)` on a writable volatile register. -/
theorem c6_counterexample :
    regWV.volatile = true
    ∧ regWV.cache = none
    ∧ (regWV.set (fixBus 1 0) 5 none 255 0).1 = .ok ()
    ∧ (regWV.set (fixBus 1 0) 5 none 255 0).2.1.cache = some 5 := by
  have hw : (fixBus 1 0).write 0x0301 (toBytesBE 1 5) none 255 0 =
      (.ok (), { fixBus 1 0 with ser := some ((fixSerial 1).afterWrite
        [specChunkDatagram 0x0301 none 255 0 [5]] 1) }) := by
    rw [show toBytesBE 1 5 = [5] from rfl]
    exact ScaffoldBus.write_one_byte (fixBus 1 0) (fixSerial 1) rfl rfl 0x0301 5
      (by decide) rfl
  refine ⟨rfl, rfl, ?_, ?_⟩ <;>
  · unfold Register.set
    rw [if_neg (by decide), if_neg (by decide), if_neg (by decide),
      if_neg (by decide)]
    rw [show regWV.address = 0x0301 from rfl, show regWV.wideness = 1 from rfl,
      hw]

/-- C3 (amended): timeout attribution at batching depth 0, when a poll
spec is present (with no poll spec a mismatching acknowledgment trips the
`assert poll is not None` and raises AssertionError instead — see the
counterexample).  Write: if the acknowledgments of the first `k` chunks
match and the k-th differs, the call fails with `TimeoutError(size =
offset + ack)` where `offset` is the cumulative size of the chunks already
written; exactly the first `k+1` chunk datagrams were sent.  Read: if the
k-th chunk's acknowledgment byte is smaller than the chunk size, only the
acknowledged prefix is appended and the call fails with a Timeout carrying
the partial data collected across all chunks so far; no further chunk
datagrams are sent. -/
theorem c3_timeout_attribution
    (bus : ScaffoldBus) (s : Serial) (addr p : Nat) (pm pv : Nat) (k : Nat)
    (hser : bus.ser = some s) (hd : bus.lazy_stack = 0)
    (haddr : addr < 0x10000) (hp : p < 0x10000) :
    (∀ data : List Nat,
      (∀ i, i < k → s.rx (s.pos + i) = (chunkSizes data.length).getD i 0) →
      k < (chunkSizes data.length).length →
      s.rx (s.pos + k) ≠ (chunkSizes data.length).getD k 0 →
      bus.write addr data (some p) pm pv =
        (.error (.timeoutWrite
          (((chunkSizes data.length).take k).sum + s.rx (s.pos + k))),
         { bus with ser := some (s.afterWrite
           (((chunksOf data).take (k + 1)).map
             (specChunkDatagram addr (some p) pm pv)) (k + 1)) }))
    ∧ (∀ size : Nat,
      (∀ i, i < k →
        s.rx (chunkStart s.pos (chunkSizes size) i + (chunkSizes size).getD i 0) =
          (chunkSizes size).getD i 0) →
      k < (chunkSizes size).length →
      s.rx (chunkStart s.pos (chunkSizes size) k + (chunkSizes size).getD k 0) <
        (chunkSizes size).getD k 0 →
      bus.read addr size (some p) pm pv =
        (.error (.timeoutRead (collectedData s.rx s.pos (chunkSizes size) k ++
           (List.range (s.rx (chunkStart s.pos (chunkSizes size) k +
             (chunkSizes size).getD k 0))).map
             (fun t => s.rx (chunkStart s.pos (chunkSizes size) k + t)))),
         { bus with ser := some (s.afterWrite
           (((chunkSizes size).take (k + 1)).map (specHeader 0 addr (some p) pm pv))
           ((((chunkSizes size).take (k + 1)).map (fun c => c + 1)).sum)) })) := by
  constructor
  · intro data hprev hk hbad
    rw [ScaffoldBus.write_some bus s hser, hd,
      writeLoop_timeout addr p pm pv haddr hp k data 0 s bus.lazy_writes hprev
        hk hbad]
    simp
  · intro size hprev hk hbad
    rw [ScaffoldBus.read_some bus s hser hd,
      readLoop_timeout addr p pm pv haddr hp k size [] s hprev hk hbad]
    simp

theorem c3_witness :
    (fixBus 1 0).write 7 [5, 6] (some 3) 255 0 =
      (.error (.timeoutWrite
        (((chunkSizes ([5, 6] : List Nat).length).take 0).sum +
          (fixSerial 1).rx ((fixSerial 1).pos + 0))),
       { fixBus 1 0 with ser := some ((fixSerial 1).afterWrite
         (((chunksOf [5, 6]).take (0 + 1)).map
           (specChunkDatagram 7 (some 3) 255 0)) (0 + 1)) })
    ∧ (fixBus 1 0).read 7 2 (some 3) 255 0 =
      (.error (.timeoutRead (collectedData (fixSerial 1).rx (fixSerial 1).pos
         (chunkSizes 2) 0 ++
         (List.range ((fixSerial 1).rx (chunkStart (fixSerial 1).pos
           (chunkSizes 2) 0 + (chunkSizes 2).getD 0 0))).map
           (fun t => (fixSerial 1).rx (chunkStart (fixSerial 1).pos
             (chunkSizes 2) 0 + t)))),
       { fixBus 1 0 with ser := some ((fixSerial 1).afterWrite
         (((chunkSizes 2).take (0 + 1)).map (specHeader 0 7 (some 3) 255 0))
         ((((chunkSizes 2).take (0 + 1)).map (fun c => c + 1)).sum)) }) :=
  ⟨(c3_timeout_attribution (fixBus 1 0) (fixSerial 1) 7 3 255 0 0 rfl rfl
      (by decide) (by decide)).1 [5, 6]
      (fun i hi => absurd hi (by omega))
      (by simp [chunkSizes_small 2 (by norm_num) (by norm_num)])
      (by simp [fixSerial, chunkSizes_small 2 (by norm_num) (by norm_num)]),
   (c3_timeout_attribution (fixBus 1 0) (fixSerial 1) 7 3 255 0 0 rfl rfl
      (by decide) (by decide)).2 2
      (fun i hi => absurd hi (by omega))
      (by simp [chunkSizes_small 2 (by norm_num) (by norm_num)])
      (by simp [fixSerial, chunkStart, chunkSizes_small 2 (by norm_num) (by norm_num)])⟩

/-- C3 counterexample: with no poll spec, a mismatching acknowledgment at
depth 0 raises AssertionError (`assert poll is not None`), not a Timeout,
for both write and read. -/
theorem c3_counterexample :
    ((fixBus 0 0).write 7 [9] none 255 0).1 = .error .assertionError
    ∧ isTimeout .assertionError = false
    ∧ ((fixBus 0 0).read 7 1 none 255 0).1 = .error .assertionError := by
  refine ⟨?_, by decide, ?_⟩
  · rw [ScaffoldBus.write_some (fixBus 0 0) (fixSerial 0) rfl]
    simp [writeLoop, prepare_datagram, Serial.send, Serial.recv_one, fixSerial,
      fixBus]
  · rw [ScaffoldBus.read_some (fixBus 0 0) (fixSerial 0) rfl rfl]
    simp [readLoop, prepare_datagram, Serial.send, Serial.recv, fixSerial,
      fixBus, List.range_succ]

/-- C1: behaviour of `lazy_end` at the failing input
`lazy_start(); lazy_start(); <one queued write>; lazy_end(); lazy_end()`.
The source's `self.__lazy_writes.clear()` sits OUTSIDE the
`if self.__lazy_stack == 0:` block, so the INNER `lazy_end` already clears
the queued expected size (reading no acknowledgment byte), and the outer
`lazy_end` then drains an empty queue and succeeds even though the
device's pending acknowledgment (byte 0 ≠ queued size 1) never matched —
the claimed Timeout is never raised and the acknowledgment byte is never
consumed.  The other conjuncts check the parts of the claim the code does
implement: a single-level flush reads one acknowledgment per queued entry,
fails with a Timeout built from the last mismatch after draining
everything, and clears the queue even on failure; and `lazy_end` at depth
0 fails with UsageError. -/
theorem c1_lazy_end_inner_clear_divergence :
    ((c1bus.lazy_end).1 = .ok ()
      ∧ (c1bus.lazy_end).2.lazy_stack = 1
      ∧ (c1bus.lazy_end).2.lazy_writes = []
      ∧ (c1bus.lazy_end).2.rxConsumed = some 0)
    ∧ (((c1bus.lazy_end).2.lazy_end).1 = .ok ()
      ∧ ((c1bus.lazy_end).2.lazy_end).2.lazy_stack = 0
      ∧ ((c1bus.lazy_end).2.lazy_end).2.rxConsumed = some 0)
    ∧ ((c1busFlush.lazy_end).1 = .error (.timeoutWrite 3)
      ∧ (c1busFlush.lazy_end).2.lazy_writes = []
      ∧ (c1busFlush.lazy_end).2.rxConsumed = some 3)
    ∧ ((fixBus 0 0).lazy_end = (.error (.runtimeError "No lazy section started"),
        fixBus 0 0)) := by
  refine ⟨⟨by decide, by decide, by decide, by decide⟩,
    ⟨by decide, by decide, by decide⟩,
    ⟨by decide, by decide, by decide⟩, ?_⟩
  rfl

/-- C10: for every `ScaffoldBus` state, connected or not, evaluating the
`is_connected` property raises `AttributeError`: its body reads `self.set`,
and `set` is not among the attributes a `ScaffoldBus` instance ever has
(class members plus the `__init__`-assigned instance attributes), so the
lookup fails before any comparison and a boolean is never returned. -/
theorem c10_is_connected_attribute_error (bus : ScaffoldBus) :
    ("set" ∉ scaffoldBusAttributeNames)
    ∧ bus.is_connected = .error (.attributeError "set")
    ∧ ∀ b : Bool, bus.is_connected ≠ .ok b := by
  refine ⟨by decide, ?_, ?_⟩
  · unfold ScaffoldBus.is_connected
    rw [if_neg (by decide)]
  · intro b
    unfold ScaffoldBus.is_connected
    rw [if_neg (by decide)]
    simp

/-- Sanity check: the modelled `__TIMEOUT_UNIT` is exactly the IEEE-754
double nearest to `3 / 10 ^ 8`, namely `4533471823554859 * 2 ^ (-77)`. -/
lemma TIMEOUT_UNIT_eq : TIMEOUT_UNIT = ⟨4533471823554859, -77⟩ := by decide

lemma ScaffoldSt.timeout_set_ok (sc : ScaffoldSt) (s : Serial)
    (hser : sc.bus.ser = some s) (v : PyFloat)
    (h0 : 0 ≤ timeoutUnits v)
    (h1 : timeoutUnits v ≤ 0xffffffff) :
    sc.timeout_set v =
      (.ok (), { sc with
        bus := { sc.bus with ser := some (s.send
          (0x08 :: toBytesBE 4 (timeoutUnits v).toNat)) },
        cache_timeout := some (timeoutUnits v) }) := by
  unfold ScaffoldSt.timeout_set ScaffoldBus.set_timeout
  simp only [hser]
  rw [if_neg (by omega)]

lemma ScaffoldSt.push_timeout_ok (sc : ScaffoldSt) (s : Serial) (m : Int)
    (hser : sc.bus.ser = some s) (hcache : sc.cache_timeout = some m)
    (v : PyFloat)
    (h0 : 0 ≤ timeoutUnits v)
    (h1 : timeoutUnits v ≤ 0xffffffff) :
    sc.push_timeout v =
      (.ok (), { sc with
        bus := { sc.bus with ser := some (s.send
          (0x08 :: toBytesBE 4 (timeoutUnits v).toNat)) },
        cache_timeout := some (timeoutUnits v),
        timeout_stack := sc.timeout_stack ++ [.num (effTimeout m)] }) := by
  unfold ScaffoldSt.push_timeout
  have hget : sc.timeout_get = .num (effTimeout m) := by
    unfold ScaffoldSt.timeout_get
    rw [hcache]
  rw [hget]
  show ({ sc with timeout_stack :=
    sc.timeout_stack ++ [PyVal.num (effTimeout m)] } : ScaffoldSt).timeout_set v = _
  rw [ScaffoldSt.timeout_set_ok
    { sc with timeout_stack := sc.timeout_stack ++ [PyVal.num (effTimeout m)] }
    s (show ({ sc with timeout_stack :=
      sc.timeout_stack ++ [PyVal.num (effTimeout m)] } : ScaffoldSt).bus.ser =
      some s from hser) v h0 h1]

lemma ScaffoldSt.pop_timeout_ok (sc : ScaffoldSt) (s : Serial)
    (st : List PyVal) (x : PyFloat) (hser : sc.bus.ser = some s)
    (hstack : sc.timeout_stack = st ++ [.num x])
    (h0 : 0 ≤ timeoutUnits x) (h1 : timeoutUnits x ≤ 0xffffffff) :
    sc.pop_timeout =
      (.ok (), { sc with
        bus := { sc.bus with ser := some (s.send
          (0x08 :: toBytesBE 4 (timeoutUnits x).toNat)) },
        cache_timeout := some (timeoutUnits x),
        timeout_stack := st }) := by
  unfold ScaffoldSt.pop_timeout
  rw [hstack, List.getLast?_concat, List.dropLast_concat]
  show ({ sc with timeout_stack := st } : ScaffoldSt).timeout_set x = _
  rw [ScaffoldSt.timeout_set_ok { sc with timeout_stack := st } s hser x h0 h1]

/-- C9 (amended): timeout stack discipline in the binary64 arithmetic the
source actually performs.  On a connected board with the timeout set
(`cache_timeout = some n0`): `push(a)` appends the current effective
seconds value — the double `effTimeout n0` — to the stack and then applies
`set(a)`, caching `timeoutUnits a = int(a / __TIMEOUT_UNIT)`; after
`push(a); push(b)`, `pop()` applies the saved double via the setter and
removes it, so the stack returns to its post-`push(a)` state while the
cache becomes `timeoutUnits (effTimeout (timeoutUnits a))` — the saved
effective value re-quantised, not always `timeoutUnits a`; a further
`pop()` restores the original stack and caches
`timeoutUnits (effTimeout n0)`, likewise not always `n0` (it is 510 for
`n0 = 511`); and `pop()` on an empty stack fails with the UsageError
`RuntimeError('Timeout setting stack is empty')` leaving the state
unchanged. -/
theorem c9_timeout_stack_discipline
    (sc : ScaffoldSt) (s : Serial) (n0 : Int) (a b : PyFloat)
    (hser : sc.bus.ser = some s)
    (hcache : sc.cache_timeout = some n0)
    (ha0 : 0 ≤ timeoutUnits a) (ha1 : timeoutUnits a ≤ 0xffffffff)
    (hb0 : 0 ≤ timeoutUnits b) (hb1 : timeoutUnits b ≤ 0xffffffff)
    (hra0 : 0 ≤ timeoutUnits (effTimeout (timeoutUnits a)))
    (hra1 : timeoutUnits (effTimeout (timeoutUnits a)) ≤ 0xffffffff)
    (hr00 : 0 ≤ timeoutUnits (effTimeout n0))
    (hr01 : timeoutUnits (effTimeout n0) ≤ 0xffffffff) :
    ((sc.push_timeout a).1 = .ok ()
      ∧ (sc.push_timeout a).2.timeout_stack =
          sc.timeout_stack ++ [.num (effTimeout n0)]
      ∧ (sc.push_timeout a).2.cache_timeout = some (timeoutUnits a))
    ∧ ((((sc.push_timeout a).2.push_timeout b).2.pop_timeout).1 = .ok ()
      ∧ (((sc.push_timeout a).2.push_timeout b).2.pop_timeout).2.cache_timeout =
          some (timeoutUnits (effTimeout (timeoutUnits a)))
      ∧ (((sc.push_timeout a).2.push_timeout b).2.pop_timeout).2.timeout_stack =
          (sc.push_timeout a).2.timeout_stack)
    ∧ (((((sc.push_timeout a).2.push_timeout b).2.pop_timeout).2.pop_timeout).1 =
          .ok ()
      ∧ ((((sc.push_timeout a).2.push_timeout b).2.pop_timeout).2.pop_timeout).2.cache_timeout =
          some (timeoutUnits (effTimeout n0))
      ∧ ((((sc.push_timeout a).2.push_timeout b).2.pop_timeout).2.pop_timeout).2.timeout_stack =
          sc.timeout_stack)
    ∧ (sc.timeout_stack = [] →
      sc.pop_timeout = (.error (.runtimeError "Timeout setting stack is empty"), sc)) := by
  have h1 := ScaffoldSt.push_timeout_ok sc s n0 hser hcache a ha0 ha1
  have e1ser : (sc.push_timeout a).2.bus.ser =
      some (s.send (0x08 :: toBytesBE 4 (timeoutUnits a).toNat)) := by
    rw [h1]
  have e1c : (sc.push_timeout a).2.cache_timeout =
      some (timeoutUnits a) := by
    rw [h1]
  have h2 := ScaffoldSt.push_timeout_ok (sc.push_timeout a).2
    (s.send (0x08 :: toBytesBE 4 (timeoutUnits a).toNat))
    (timeoutUnits a) e1ser e1c b hb0 hb1
  have e2ser : ((sc.push_timeout a).2.push_timeout b).2.bus.ser =
      some ((s.send (0x08 :: toBytesBE 4 (timeoutUnits a).toNat)).send
        (0x08 :: toBytesBE 4 (timeoutUnits b).toNat)) := by
    rw [h2]
  have e2st : ((sc.push_timeout a).2.push_timeout b).2.timeout_stack =
      (sc.push_timeout a).2.timeout_stack ++
        [.num (effTimeout (timeoutUnits a))] := by
    rw [h2]
  have h3 := ScaffoldSt.pop_timeout_ok ((sc.push_timeout a).2.push_timeout b).2
    ((s.send (0x08 :: toBytesBE 4 (timeoutUnits a).toNat)).send
      (0x08 :: toBytesBE 4 (timeoutUnits b).toNat))
    (sc.push_timeout a).2.timeout_stack (effTimeout (timeoutUnits a))
    e2ser e2st hra0 hra1
  have e3ser : (((sc.push_timeout a).2.push_timeout b).2.pop_timeout).2.bus.ser =
      some (((s.send (0x08 :: toBytesBE 4 (timeoutUnits a).toNat)).send
        (0x08 :: toBytesBE 4 (timeoutUnits b).toNat)).send
        (0x08 :: toBytesBE 4 (timeoutUnits (effTimeout (timeoutUnits a))).toNat)) := by
    rw [h3]
  have e3st : (((sc.push_timeout a).2.push_timeout b).2.pop_timeout).2.timeout_stack =
      sc.timeout_stack ++ [.num (effTimeout n0)] := by
    rw [h3, h1]
  have h4 := ScaffoldSt.pop_timeout_ok
    (((sc.push_timeout a).2.push_timeout b).2.pop_timeout).2
    (((s.send (0x08 :: toBytesBE 4 (timeoutUnits a).toNat)).send
      (0x08 :: toBytesBE 4 (timeoutUnits b).toNat)).send
      (0x08 :: toBytesBE 4 (timeoutUnits (effTimeout (timeoutUnits a))).toNat))
    sc.timeout_stack (effTimeout n0) e3ser e3st hr00 hr01
  refine ⟨⟨by rw [h1], by rw [h1], by rw [h1]⟩,
    ⟨by rw [h3], by rw [h3], by rw [h3]⟩,
    ⟨by rw [h4], by rw [h4], by rw [h4]⟩, ?_⟩
  intro hempty
  unfold ScaffoldSt.pop_timeout
  rw [hempty]
  rfl

set_option maxRecDepth 100000 in
theorem c9_witness :
    ((fixScaffold.push_timeout (flOfRat 1 2)).1 = .ok ()
      ∧ (fixScaffold.push_timeout (flOfRat 1 2)).2.timeout_stack =
          fixScaffold.timeout_stack ++ [.num (effTimeout 1000)]
      ∧ (fixScaffold.push_timeout (flOfRat 1 2)).2.cache_timeout =
          some (timeoutUnits (flOfRat 1 2)))
    ∧ ((((fixScaffold.push_timeout (flOfRat 1 2)).2.push_timeout (flOfRat 1 1)).2.pop_timeout).1 = .ok ()
      ∧ (((fixScaffold.push_timeout (flOfRat 1 2)).2.push_timeout (flOfRat 1 1)).2.pop_timeout).2.cache_timeout =
          some (timeoutUnits (effTimeout (timeoutUnits (flOfRat 1 2))))
      ∧ (((fixScaffold.push_timeout (flOfRat 1 2)).2.push_timeout (flOfRat 1 1)).2.pop_timeout).2.timeout_stack =
          (fixScaffold.push_timeout (flOfRat 1 2)).2.timeout_stack)
    ∧ (((((fixScaffold.push_timeout (flOfRat 1 2)).2.push_timeout (flOfRat 1 1)).2.pop_timeout).2.pop_timeout).1 =
          .ok ()
      ∧ ((((fixScaffold.push_timeout (flOfRat 1 2)).2.push_timeout (flOfRat 1 1)).2.pop_timeout).2.pop_timeout).2.cache_timeout =
          some (timeoutUnits (effTimeout 1000))
      ∧ ((((fixScaffold.push_timeout (flOfRat 1 2)).2.push_timeout (flOfRat 1 1)).2.pop_timeout).2.pop_timeout).2.timeout_stack =
          fixScaffold.timeout_stack)
    ∧ (fixScaffold.timeout_stack = [] →
      fixScaffold.pop_timeout =
        (.error (.runtimeError "Timeout setting stack is empty"), fixScaffold)) :=
  c9_timeout_stack_discipline fixScaffold (fixSerial 0) 1000
    (flOfRat 1 2) (flOfRat 1 1) rfl rfl
    (by decide) (by decide) (by decide) (by decide)
    (by decide) (by decide) (by decide) (by decide)

set_option maxRecDepth 100000 in
/-- C9, counterexample to the claim's exact restoration: binary64 rounding
loses one unit across the getter/setter round trip at
`__cache_timeout = 511`.  The cache value 511 is reachable through the
public setter (the double of the literal `1.5331e-5` quantises to 511
units); a `push` then saves the effective value `511 * __TIMEOUT_UNIT`,
and the following `pop` re-applies it through
`int(value / __TIMEOUT_UNIT)`, which yields 510: the `pop` does not
restore the prior setting. -/
theorem c9_counterexample :
    ((fixScaffoldNone.timeout_set (flOfRat 15331 1000000000)).1 = .ok ()
      ∧ (fixScaffoldNone.timeout_set (flOfRat 15331 1000000000)).2.cache_timeout =
          some 511)
    ∧ ((((fixScaffoldNone.timeout_set (flOfRat 15331 1000000000)).2.push_timeout
          (flOfRat 1 1)).2.pop_timeout).1 = .ok ()
      ∧ (((fixScaffoldNone.timeout_set (flOfRat 15331 1000000000)).2.push_timeout
          (flOfRat 1 1)).2.pop_timeout).2.cache_timeout = some 510)
    ∧ timeoutUnits (effTimeout 511) = 510
    ∧ (510 : Int) ≠ 511 := by decide

theorem c10_witness :
    ("set" ∉ scaffoldBusAttributeNames)
    ∧ (fixBusNone 0).is_connected = .error (.attributeError "set")
    ∧ ∀ b : Bool, (fixBusNone 0).is_connected ≠ .ok b :=
  c10_is_connected_attribute_error (fixBusNone 0)
